import Mathlib

/-!
Verification development for the Speedball 2 sound player
(`src/sound_player.rs`): a shallow embedding of the playback engine
(sample channel, effect runner, sequence VM, sound channel, 4-channel
mixer) together with theorems settling the specification claims.

Modelling conventions:
* `f32` values are modelled by exact rationals `ℚ`; `Sample::EQUILIBRIUM`
  for floats is `0`.
* Machine integers are `Nat`/`Int`; wrapping operations of the source
  (`wrapping_add_signed`, release-mode overflow) take an explicit
  `% 2^w`.
* Fallible code (out-of-bounds indexing, division by zero, failed
  `unwrap`/`assert`) is modelled by `Option`, `none` meaning a panic.
* Loops without a structural bound (the VM dispatch loop, the 50 Hz
  frame loop) take an explicit fuel argument; `none` also results when
  fuel runs out, so a `some` result is one the Rust program reaches.
* The static tables of `sound_data.rs` (`PITCHES`, `EFFECTS`) are not
  part of `src/`; they are taken as parameters, and `OCTAVE_SIZE` is
  modelled from the spec.
-/

namespace Speedball2

/-- A byte of the sound bank image, reinterpreted `as i8 as f32`
(signed 8-bit), as a rational. -/
def i8val (b : Nat) : Int :=
  if b % 256 < 128 then (b % 256 : Int) else (b % 256 : Int) - 256

/-- `u16::wrapping_add_signed` from `calc_time_step`. -/
def wrapAddSigned16 (a : Nat) (b : Int) : Nat :=
  (((a : Int) + b) % 65536).toNat

/-- `usize::wrapping_add_signed` from the Note opcode. -/
def wrapAddSigned64 (a : Nat) (b : Int) : Nat :=
  (((a : Int) + b) % (2 ^ 64)).toNat

/-- `MAX_VOLUME` from `sound_player.rs`. -/
def MAX_VOLUME : ℚ := 64

/-- Modelled from the spec: `OCTAVE_SIZE` lives in `sound_data.rs`,
which is not under `src/`; the spec fixes it as the number of
quarter-semitones per octave, 48. -/
def OCTAVE_SIZE : Nat := 48

/-- PAL clock interval (seconds per period tick), `0.281937e-6`. -/
def CLOCK_INTERVAL_S : ℚ := 281937 / 1000000000000

/-- Modelled from the spec: the `Bend` record of `sound_data.rs`
(not under `src/`): a `(rate: i16, pause: u8, length: u8)` triple. -/
structure Bend where
  rate : Int
  pause : Nat
  length : Nat
deriving Repr, DecidableEq

/-- Modelled from the spec: the `Effect` record of `sound_data.rs`
(not under `src/`): two tremolo bends and three vibrato bends (the
fixed-size arrays are modelled as lists). -/
structure Effect where
  tremolos : List Bend
  vibratos : List Bend
deriving Repr, DecidableEq

/-- `BendState` from `sound_player.rs`. -/
structure BendState where
  pause_count : Nat
  length_count : Nat
deriving Repr, DecidableEq

/-- `BendState::new`. -/
def BendState.new : BendState := { pause_count := 0, length_count := 0 }

/-- `BendState::from`. -/
def BendState.from' (bend : Bend) : BendState :=
  { pause_count := bend.pause, length_count := bend.length }

/-- `EffectState` from `sound_player.rs`. -/
structure EffectState where
  tremolos : List BendState
  vibratos : List BendState
  tremolo_loops : Bool
  vibrato_loops : Bool
  vol_adjust : Int
  period_adjust : Int
deriving Repr, DecidableEq

/-- `EffectState::new`. -/
def EffectState.new : EffectState :=
  { tremolos := [BendState.new, BendState.new]
    vibratos := [BendState.new, BendState.new, BendState.new]
    tremolo_loops := false
    vibrato_loops := false
    vol_adjust := 0
    period_adjust := 0 }

/-- `EffectState::reset`: rewind the bend states from the effect's
templates, clear the accumulators, keep the looping flags. -/
def EffectState.reset (es : EffectState) (effect : Effect) : EffectState :=
  { es with
    tremolos := effect.tremolos.map BendState.from'
    vibratos := effect.vibratos.map BendState.from'
    vol_adjust := 0
    period_adjust := 0 }

/-- The scanning pass of `EffectState::step`: walk the zipped
`(bend, state)` pairs; a pair still pausing is decremented and skipped,
an exhausted pair is skipped, otherwise the pair fires (returning
`some rate`) and the remaining states are left untouched. -/
def stepScan : List Bend → List BendState → Option Int × List BendState
  | fx :: bends, st :: states =>
    if st.pause_count > 0 then
      let st' : BendState := { st with pause_count := st.pause_count - 1 }
      let (r, states') := stepScan bends states
      (r, st' :: states')
    else if st.length_count = 0 then
      let (r, states') := stepScan bends states
      (r, st :: states')
    else
      (some fx.rate,
        { pause_count := fx.pause, length_count := st.length_count - 1 } :: states)
  | _, states => (none, states)

/-- The end-of-scan reset of `EffectState::step`:
`for (dst, src) in bend_states.iter_mut().zip(bends.iter())`. -/
def resetStates : List Bend → List BendState → List BendState
  | fx :: bends, _ :: states => BendState.from' fx :: resetStates bends states
  | _, states => states

/-- `EffectState::step` from `sound_player.rs`. -/
def EffectState.step (bends : List Bend) (bend_states : List BendState)
    (loops : Bool) : Int × List BendState :=
  match stepScan bends bend_states with
  | (some r, states') => (r, states')
  | (none, states') => (0, if loops then resetStates bends states' else states')

/-- `EffectState::step_tremolo`: despite the name this advances the
*vibrato* bends, accumulating into `period_adjust` (the cross-wiring
of the source). -/
def EffectState.step_tremolo (es : EffectState) (effect : Effect) : EffectState :=
  let (d, vibratos') := EffectState.step effect.vibratos es.vibratos es.vibrato_loops
  { es with period_adjust := es.period_adjust + d, vibratos := vibratos' }

/-- `EffectState::step_vibrato`: advances the *tremolo* bends,
accumulating into `vol_adjust`. -/
def EffectState.step_vibrato (es : EffectState) (effect : Effect) : EffectState :=
  let (d, tremolos') := EffectState.step effect.tremolos es.tremolos es.tremolo_loops
  { es with vol_adjust := es.vol_adjust + d, tremolos := tremolos' }

/-- `Instrument` from `sound_player.rs` (field widths: `is_one_shot:
bool`, `loop_offset`, `sample_len : u16`, `sample_addr`, `base_octave :
usize`). -/
structure Instrument where
  is_one_shot : Bool
  loop_offset : Nat
  sample_len : Nat
  sample_addr : Nat
  base_octave : Nat
deriving Repr, DecidableEq

/-- `SampleChannel` from `sound_player.rs`, minus the shared bank
handle (the bank's byte image is passed to the operations instead). -/
structure SampleChannel where
  instr : Option Instrument
  volume : ℚ
  volume_adjust : ℚ
  pitch : Nat
  pitch_adjust : Int
  phase : ℚ
  lerp : Bool
deriving Repr, DecidableEq

/-- `SampleChannel::new`. -/
def SampleChannel.new : SampleChannel :=
  { instr := none, volume := 1, volume_adjust := 0, pitch := 48 * 4
    pitch_adjust := 0, phase := 0, lerp := true }

/-- `SampleChannel::play`. -/
def SampleChannel.play (ch : SampleChannel) (instr : Instrument) : SampleChannel :=
  { ch with instr := some instr, phase := 0 }

/-- `SampleChannel::stop_hard`. -/
def SampleChannel.stop_hard (ch : SampleChannel) : SampleChannel :=
  { ch with instr := none }

/-- `SampleChannel::stop_loop`. -/
def SampleChannel.stop_loop (ch : SampleChannel) : SampleChannel :=
  match ch.instr with
  | some instrument => if instrument.loop_offset = 0 then ch.stop_hard else ch
  | none => ch

/-- `SampleChannel::calc_time_step`, parametrised by the `PITCHES`
table of `sound_data.rs` (not under `src/`; entries are `u16` period
ticks). -/
def calc_time_step (pitches : Nat → Nat) (ch : SampleChannel) : ℚ :=
  match ch.instr with
  | some instrument =>
    let base_note := (instrument.base_octave + 1) * OCTAVE_SIZE
    let period_tick := wrapAddSigned16 (pitches (base_note + ch.pitch)) ch.pitch_adjust
    (period_tick : ℚ) * CLOCK_INTERVAL_S
  | none => 0

/-- `self.phase.fract()`: `f32::fract` is `self - self.trunc()`
(truncation toward zero). -/
def rfract (q : ℚ) : ℚ :=
  if 0 ≤ q then q - Int.floor q else q - Int.ceil q

/-- The sample fetch of `SampleChannel::fill_buffer` (step 6 of the
spec): read `mem[sample_addr + idx]` as signed 8-bit and, with `lerp`
on, interpolate with the next source sample (with the end-of-sample
boundary cases of the source). `none` models an out-of-bounds panic. -/
def readVal (mem : List Nat) (instrument : Instrument) (lerp : Bool)
    (phase : ℚ) (idx : Nat) : Option ℚ :=
  if lerp then
    match mem[instrument.sample_addr + idx]? with
    | none => none
    | some lb =>
      match (if instrument.sample_addr + idx + 1
          = instrument.sample_addr + instrument.sample_len * 2 then
          (if instrument.is_one_shot then some 0
            else mem[instrument.sample_addr + instrument.loop_offset]?)
        else mem[instrument.sample_addr + idx + 1]? : Option Nat) with
      | none => none
      | some rv =>
        some ((i8val lb : ℚ) * (1 - rfract phase)
          + (i8val rv : ℚ) * rfract phase)
  else
    match mem[instrument.sample_addr + idx]? with
    | none => none
    | some b => some ((i8val b : ℚ))

/-- One iteration of the fill loop of `SampleChannel::fill_buffer`:
advance the phase, possibly hit the end of the sample (one-shot: drop
the instrument and break, reported as `(none, phase)`; looped: wrap the
phase by `wrapAmt = sample_len * 2 - loop_offset`, a `u16` subtraction
stated with explicit `% 65536`), then
fetch and scale one sample, reported as `(some sample, phase)`.
The outer `none` models a panic. -/
def wrapAmt (instrument : Instrument) : Nat :=
  (instrument.sample_len * 2 % 65536 + 65536
    - instrument.loop_offset % 65536) % 65536

def oneSample (mem : List Nat) (instrument : Instrument) (vol step : ℚ)
    (lerp : Bool) (phase : ℚ) : Option (Option ℚ × ℚ) :=
  if Nat.floor (phase + step) ≥ instrument.sample_len * 2 then
    if instrument.is_one_shot then
      some (none, phase + step)
    else
      match readVal mem instrument lerp (phase + step - (wrapAmt instrument : ℚ))
          (Nat.floor (phase + step - (wrapAmt instrument : ℚ))) with
      | none => none
      | some v =>
        some (some (vol * v / 128), phase + step - (wrapAmt instrument : ℚ))
  else
    match readVal mem instrument lerp (phase + step)
        (Nat.floor (phase + step)) with
    | none => none
    | some v => some (some (vol * v / 128), phase + step)

/-- The fill loop of `SampleChannel::fill_buffer`, by recursion on the
number of output samples still to produce. The result is the final
`self.instr`, the final `phase` and the produced samples; on a one-shot
break the rest of the buffer keeps the initial equilibrium fill. -/
def sampleFillLoop (mem : List Nat) (instrument : Instrument) (vol step : ℚ)
    (lerp : Bool) : Nat → ℚ → Option (Option Instrument × ℚ × List ℚ)
  | 0, phase => some (some instrument, phase, [])
  | n + 1, phase =>
    match oneSample mem instrument vol step lerp phase with
    | none => none
    | some (none, phase') => some (none, phase', List.replicate (n + 1) 0)
    | some (some v, phase') =>
      match sampleFillLoop mem instrument vol step lerp n phase' with
      | none => none
      | some (oi, phaseF, out) => some (oi, phaseF, v :: out)

/-- `SampleChannel::fill_buffer`, producing `n` mono samples. -/
def SampleChannel.fill_buffer (pitches : Nat → Nat) (mem : List Nat)
    (sample_rate : Nat) (ch : SampleChannel) (n : Nat) :
    Option (SampleChannel × List ℚ) :=
  match ch.instr with
  | none => some (ch, List.replicate n 0)
  | some instrument =>
    match sampleFillLoop mem instrument (ch.volume + ch.volume_adjust)
        (1 / (calc_time_step pitches ch * (sample_rate : ℚ))) ch.lerp n
        ch.phase with
    | none => none
    | some (oi, phaseF, out) =>
      some ({ ch with instr := oi, phase := phaseF }, out)

/-- `SoundBank` from `sound_player.rs`: the raw byte image plus the
scraped instrument and sequence tables. -/
structure SoundBank where
  data : List Nat
  instruments : List Instrument
  sequences : List Nat
deriving Repr, DecidableEq

/-- `Options` from `sound_player.rs`. -/
structure Options where
  tremolo : Bool
  vibrato : Bool
  repeats : Bool
deriving Repr, DecidableEq

/-- `Options::new`. -/
def Options.new : Options := { tremolo := true, vibrato := true, repeats := true }

/-- `Sequence` from `sound_player.rs`: the per-voice VM state. The
loop stack grows at the head (`push` is cons). -/
structure Sequence where
  addr : Nat
  start_addr : Nat
  frames_per_beat : Nat
  transposition : Int
  instrument_idx : Nat
  note_len : Nat
  ttl : Nat
  effect : Effect
  effect_state : EffectState
  loop_stack : List (Nat × Nat)
deriving Repr, DecidableEq

/-- `EvalResult` from `sound_player.rs`. -/
inductive EvalResult where
  | Done
  | Cont
  | Stop
deriving Repr, DecidableEq

/-- The opcode dispatch of `Sequence::eval` (after the opcode byte has
been read and `addr` advanced), parametrised by the `EFFECTS` table of
`sound_data.rs` (not under `src/`). `none` models a panic
(out-of-bounds indexing, division by zero, the `assert` on Return, the
`unwrap` on Next). The numeric-literal `match` of the source is written
as an equality chain. -/
def evalCode (effects : List Effect) (bank : SoundBank) (code : Nat)
    (seq : Sequence) (channel : SampleChannel) (options : Options) :
    Option (EvalResult × Sequence × SampleChannel) :=
    if code < 0x80 then
      -- Note: reset effects, set pitch, trigger the instrument.
      match bank.instruments[seq.instrument_idx]? with
      | none => none
      | some instr =>
        some (.Done,
          { seq with effect_state := seq.effect_state.reset seq.effect
                     ttl := seq.note_len },
          { channel with pitch := wrapAddSigned64 (code * 4) seq.transposition
          }.play instr)
    else if code = 0x80 then
      -- Set volume
      match (bank.data[seq.addr]? : Option Nat) with
      | none => none
      | some volume =>
        some (.Cont, { seq with addr := seq.addr + 1 },
          { channel with volume := (volume : ℚ) / MAX_VOLUME })
    else if code = 0x88 then
      -- Go back to start
      if !options.repeats then some (.Done, seq, channel)
      else some (.Cont, { seq with addr := seq.start_addr }, channel)
    else if code = 0x8c then
      -- Set note length
      match bank.data[seq.addr]? with
      | none => none
      | some note_len =>
        some (.Cont, { seq with addr := seq.addr + 1
                                note_len := note_len * seq.frames_per_beat },
          channel)
    else if code = 0x90 then
      -- Rest
      some (.Done, seq, channel.stop_loop)
    else if code = 0x94 then
      -- Set tempo; `750 / bpm` panics when the operand is zero.
      match bank.data[seq.addr]? with
      | none => none
      | some bpm =>
        if bpm = 0 then none
        else some (.Cont, { seq with addr := seq.addr + 1
                                     frames_per_beat := 750 / bpm }, channel)
    else if code = 0x9c then
      -- Set effect
      match bank.data[seq.addr]? with
      | none => none
      | some effect_idx =>
        match effects[effect_idx]? with
        | none => none
        | some effect =>
          some (.Cont, { seq with addr := seq.addr + 1, effect := effect
                                  effect_state := EffectState.new }, channel)
    else if code = 0xa8 then
      -- Effects looping flags
      match bank.data[seq.addr]? with
      | none => none
      | some loop_flags =>
        some (.Cont,
          { seq with addr := seq.addr + 1
                     effect_state :=
                       { seq.effect_state with
                         tremolo_loops := loop_flags &&& 1 ≠ 0
                         vibrato_loops := loop_flags &&& 2 ≠ 0 } }, channel)
    else if code = 0xac then
      -- Stop
      some (.Stop, seq, channel)
    else if code = 0xb0 then
      -- Call
      match bank.data[seq.addr]? with
      | none => none
      | some seq_idx =>
        match bank.sequences[seq_idx]? with
        | none => none
        | some target =>
          some (.Cont,
            { seq with loop_stack := (0, seq.addr + 1) :: seq.loop_stack
                       addr := target }, channel)
    else if code = 0xb4 then
      -- Return; the `assert_eq!(i, 0)` panics on a mismatched frame.
      match seq.loop_stack with
      | [] => some (.Stop, seq, channel)
      | (i, ret_addr) :: rest =>
        if i = 0 then
          some (.Cont, { seq with addr := ret_addr, loop_stack := rest }, channel)
        else none
    else if code = 0xb8 then
      -- Add transposition
      match bank.data[seq.addr]? with
      | none => none
      | some t =>
        let delta := i8val t
        some (.Cont,
          { seq with addr := seq.addr + 1
                     transposition :=
                       if delta = 0 then 0 else seq.transposition + delta },
          channel)
    else if code = 0xbc then
      -- Set transposition
      match bank.data[seq.addr]? with
      | none => none
      | some t =>
        some (.Cont, { seq with addr := seq.addr + 1, transposition := i8val t },
          channel)
    else if code = 0xc0 then
      -- For loop
      match bank.data[seq.addr]? with
      | none => none
      | some count =>
        some (.Cont,
          { seq with addr := seq.addr + 1
                     loop_stack := (count, seq.addr + 1) :: seq.loop_stack },
          channel)
    else if code = 0xc4 then
      -- Next; `last_mut().unwrap()` panics on an empty stack.
      match seq.loop_stack with
      | [] => none
      | (count, loop_addr) :: rest =>
        if count = 0 then
          some (.Cont, { seq with loop_stack := rest }, channel)
        else
          some (.Cont, { seq with addr := loop_addr
                                  loop_stack := (count - 1, loop_addr) :: rest },
            channel)
    else if code = 0xd0 then
      -- Set instrument
      match bank.data[seq.addr]? with
      | none => none
      | some instr_idx =>
        some (.Cont, { seq with addr := seq.addr + 1, instrument_idx := instr_idx },
          channel)
    else if code = 0xd4 then
      -- Jump
      match bank.data[seq.addr]? with
      | none => none
      | some seq_idx =>
        match bank.sequences[seq_idx]? with
        | none => none
        | some target => some (.Cont, { seq with addr := target }, channel)
    else
      -- Unknown code: bail.
      some (.Stop, seq, channel)

/-- `Sequence::eval`: read one opcode byte, advance `addr`, dispatch. -/
def Sequence.eval (effects : List Effect) (bank : SoundBank) (seq : Sequence)
    (channel : SampleChannel) (options : Options) :
    Option (EvalResult × Sequence × SampleChannel) :=
  match bank.data[seq.addr]? with
  | none => none
  | some code =>
    evalCode effects bank code { seq with addr := seq.addr + 1 } channel options

/-- The `while result == Cont` dispatch loop of `Sequence::update`,
bounded by fuel. -/
def evalLoop (effects : List Effect) (bank : SoundBank) (options : Options) :
    Nat → Sequence → SampleChannel →
    Option (EvalResult × Sequence × SampleChannel)
  | 0, _, _ => none
  | fuel + 1, seq, channel =>
    match Sequence.eval effects bank seq channel options with
    | none => none
    | some (res, seq', channel') =>
      if res = .Cont then evalLoop effects bank options fuel seq' channel'
      else some (res, seq', channel')

/-- `Sequence::update`: one 50 Hz timestep; returns whether the
sequence continues. -/
def Sequence.update (effects : List Effect) (bank : SoundBank) (evalFuel : Nat)
    (seq : Sequence) (channel : SampleChannel) (options : Options) :
    Option (Bool × Sequence × SampleChannel) :=
  if seq.ttl > 0 then some (true, seq, channel)
  else
    match evalLoop effects bank options evalFuel seq channel with
    | none => none
    | some (res, seq', channel') =>
      if res = .Done then some (true, { seq' with ttl := seq'.note_len }, channel')
      else some (false, { seq' with ttl := seq'.note_len }, channel'.stop_hard)

/-- `Sequence::step_frame`: update, decrement `ttl` (a `usize`
decrement; release-mode wrap on underflow, which a debug build would
report as a panic), then advance the effect machinery gated by the
per-channel options and push the accumulators to the sample channel. -/
def Sequence.step_frame (effects : List Effect) (bank : SoundBank)
    (evalFuel : Nat) (seq : Sequence) (channel : SampleChannel)
    (options : Options) : Option (Bool × Sequence × SampleChannel) :=
  match Sequence.update effects bank evalFuel seq channel options with
  | none => none
  | some (false, seq, channel) => some (false, seq, channel)
  | some (true, seq, channel) =>
    let seq := { seq with ttl := if seq.ttl = 0 then 2 ^ 64 - 1 else seq.ttl - 1 }
    let (seq, channel) :=
      if options.tremolo then
        let es := seq.effect_state.step_tremolo seq.effect
        ({ seq with effect_state := es },
         { channel with pitch_adjust := es.period_adjust })
      else (seq, channel)
    let (seq, channel) :=
      if options.vibrato then
        let es := seq.effect_state.step_vibrato seq.effect
        ({ seq with effect_state := es },
         { channel with volume_adjust := (es.vol_adjust : ℚ) / MAX_VOLUME })
      else (seq, channel)
    some (true, seq, channel)

/-- `SoundChannel` from `sound_player.rs`, minus the shared bank
handle. -/
structure SoundChannel where
  sample_channel : SampleChannel
  samples_remaining : Nat
  sequence : Option Sequence
  options : Options
deriving Repr, DecidableEq

/-- `SoundChannel::new`. -/
def SoundChannel.new : SoundChannel :=
  { sample_channel := SampleChannel.new, samples_remaining := 0
    sequence := none, options := Options.new }

/-- The sequence tick inside `SoundChannel::fill_buffer`: step the
attached sequence one frame, dropping it when it reports
end-of-sequence. -/
def seqTick (effects : List Effect) (bank : SoundBank) (evalFuel : Nat)
    (sequence : Option Sequence) (sc : SampleChannel) (options : Options) :
    Option (Option Sequence × SampleChannel) :=
  match sequence with
  | none => some (none, sc)
  | some sq =>
    match Sequence.step_frame effects bank evalFuel sq sc options with
    | none => none
    | some (running, sq', sc') =>
      some (if running then some sq' else none, sc')

/-- The `while data.len() >= self.samples_remaining` loop of
`SoundChannel::fill_buffer` plus the residual fill, bounded by
`frameFuel` (the loop has no structural bound: with
`samples_per_frame = 0` it runs forever). `len` is the length of the
output slice still to fill. -/
def soundFillLoop (pitches : Nat → Nat) (effects : List Effect)
    (bank : SoundBank) (evalFuel sample_rate samples_per_frame : Nat) :
    Nat → SoundChannel → Nat → Option (SoundChannel × List ℚ)
  | 0, _, _ => none
  | frameFuel + 1, st, len =>
    if st.samples_remaining ≤ len then
      match SampleChannel.fill_buffer pitches bank.data sample_rate
          st.sample_channel st.samples_remaining with
      | none => none
      | some (sc1, out1) =>
        match seqTick effects bank evalFuel st.sequence sc1 st.options with
        | none => none
        | some (seq', sc2) =>
          let st' : SoundChannel :=
            { st with sample_channel := sc2, sequence := seq'
                      samples_remaining := samples_per_frame }
          match soundFillLoop pitches effects bank evalFuel sample_rate
              samples_per_frame frameFuel st' (len - st.samples_remaining) with
          | none => none
          | some (stF, outRest) => some (stF, out1 ++ outRest)
    else
      match SampleChannel.fill_buffer pitches bank.data sample_rate
          st.sample_channel len with
      | none => none
      | some (sc1, out1) =>
        some ({ st with sample_channel := sc1
                        samples_remaining := st.samples_remaining - len }, out1)

/-- `SoundChannel::fill_buffer` (`FRAMES_PER_SECOND = 50`). -/
def SoundChannel.fill_buffer (pitches : Nat → Nat) (effects : List Effect)
    (bank : SoundBank) (frameFuel evalFuel : Nat) (st : SoundChannel)
    (sample_rate len : Nat) : Option (SoundChannel × List ℚ) :=
  soundFillLoop pitches effects bank evalFuel sample_rate (sample_rate / 50)
    frameFuel st len

/-- `Synth` from `sound_player.rs` (the four channels as a list; the
GUI-only fields are omitted). -/
structure Synth where
  channels : List SoundChannel
  stereo : Bool
deriving Repr, DecidableEq

/-- The stereo write of `Synth::fill_buffer`: the iterator
`data.iter_mut().skip(offset).step_by(num_channels).zip(tmp.iter())`
adds `scale * tmp[k]` at output index `offset + k * num_channels`,
stated index-wise: index `j` is written iff `j = offset + k * nc` for
some `k < tmp.len()` (with `nc ≥ 1` the iterator never repeats an
index). -/
def mixInto (scale : ℚ) (out : List ℚ) (offset nc : Nat) (tmp : List ℚ) :
    List ℚ :=
  out.enum.map fun p =>
    if offset ≤ p.1 ∧ (p.1 - offset) % nc = 0 ∧ (p.1 - offset) / nc < tmp.length
    then p.2 + scale * tmp.getD ((p.1 - offset) / nc) 0
    else p.2

/-- The mono write of `Synth::fill_buffer`:
`data.chunks_mut(num_channels).zip(tmp.iter())` adds `scale * tmp[k]`
to every lane of frame `k`, stated index-wise: index `j` belongs to
frame `j / nc`. -/
def monoMix (scale : ℚ) (out : List ℚ) (nc : Nat) (tmp : List ℚ) : List ℚ :=
  out.enum.map fun p =>
    if p.1 / nc < tmp.length then p.2 + scale * tmp.getD (p.1 / nc) 0 else p.2

/-- The stereo channel loop of `Synth::fill_buffer`. -/
def stereoMixLoop (pitches : Nat → Nat) (effects : List Effect)
    (bank : SoundBank) (frameFuel evalFuel sample_rate nc tmpLen : Nat)
    (scale : ℚ) : List SoundChannel → Nat → List ℚ →
    Option (List SoundChannel × List ℚ)
  | [], _, out => some ([], out)
  | ch :: rest, ch_idx, out =>
    match SoundChannel.fill_buffer pitches effects bank frameFuel evalFuel ch
        sample_rate tmpLen with
    | none => none
    | some (ch', tmp) =>
      let out' := mixInto scale out (ch_idx &&& 1) nc tmp
      match stereoMixLoop pitches effects bank frameFuel evalFuel sample_rate
          nc tmpLen scale rest (ch_idx + 1) out' with
      | none => none
      | some (rest', outF) => some (ch' :: rest', outF)

/-- The mono channel loop of `Synth::fill_buffer`. -/
def monoMixLoop (pitches : Nat → Nat) (effects : List Effect)
    (bank : SoundBank) (frameFuel evalFuel sample_rate nc tmpLen : Nat)
    (scale : ℚ) : List SoundChannel → List ℚ →
    Option (List SoundChannel × List ℚ)
  | [], out => some ([], out)
  | ch :: rest, out =>
    match SoundChannel.fill_buffer pitches effects bank frameFuel evalFuel ch
        sample_rate tmpLen with
    | none => none
    | some (ch', tmp) =>
      let out' := monoMix scale out nc tmp
      match monoMixLoop pitches effects bank frameFuel evalFuel sample_rate
          nc tmpLen scale rest out' with
      | none => none
      | some (rest', outF) => some (ch' :: rest', outF)

/-- `Synth::fill_buffer` (the `SoundSource` contract), at the float
output type: fill the buffer with equilibrium, render each channel
into a scratch buffer of `len / num_channels` samples, and mix with
scale `1 / channels.len()` either in stereo lanes or across every
lane. `num_channels = 0` panics in the source (`data.len() / 0`). -/
def Synth.fill_buffer (pitches : Nat → Nat) (effects : List Effect)
    (bank : SoundBank) (frameFuel evalFuel : Nat) (synth : Synth)
    (num_channels sample_rate len : Nat) : Option (Synth × List ℚ) :=
  if num_channels = 0 then none
  else
    let out0 := List.replicate len (0 : ℚ)
    let mixer_scale : ℚ := 1 / (synth.channels.length : ℚ)
    let tmpLen := len / num_channels
    if synth.stereo ∧ 1 < num_channels then
      match stereoMixLoop pitches effects bank frameFuel evalFuel sample_rate
          num_channels tmpLen mixer_scale synth.channels 0 out0 with
      | none => none
      | some (chs, out) => some ({ synth with channels := chs }, out)
    else
      match monoMixLoop pitches effects bank frameFuel evalFuel sample_rate
          num_channels tmpLen mixer_scale synth.channels out0 with
      | none => none
      | some (chs, out) => some ({ synth with channels := chs }, out)

/-! ### Specification-side restatement of the effect runner

`stepSpec` renders the claim's description of `EffectState::step`
declaratively: find the first firing pair, decrement the pauses of the
skipped prefix, fire it, leave the suffix untouched; on fall-through,
decrement pauses across the scanned region and (only when `loops`)
rewind every state that has a bend template. It is compared with the
source-derived `EffectState.step`. -/

/-- A `(bend, state)` pair fires iff it is not pausing and not
exhausted. -/
def firesB (s : BendState) : Bool := s.pause_count == 0 && s.length_count != 0

/-- The effect of being scanned without firing: a pausing state is
decremented, others are untouched. -/
def skipUpdate (s : BendState) : BendState :=
  if 0 < s.pause_count then { s with pause_count := s.pause_count - 1 } else s

/-- Declarative form of `EffectState::step` following the claim's
wording. -/
def stepSpec (bends : List Bend) (states : List BendState) (loops : Bool) :
    Int × List BendState :=
  let pairs := bends.zip states
  match pairs.findIdx? (fun p => firesB p.2) with
  | some i =>
    let p := pairs.getD i (⟨0, 0, 0⟩, ⟨0, 0⟩)
    (p.1.rate,
      (states.take i).map skipUpdate
        ++ ({ pause_count := p.1.pause, length_count := p.2.length_count - 1 } :
              BendState)
        :: states.drop (i + 1))
  | none =>
    let scanned := (states.take bends.length).map skipUpdate
      ++ states.drop bends.length
    (0,
      if loops then
        (bends.take scanned.length).map BendState.from'
          ++ scanned.drop bends.length
      else scanned)

/-! ### Concrete instances used to instantiate the theorems -/

/-- An empty sound bank. -/
def bank0 : SoundBank := { data := [], instruments := [], sequences := [] }

/-- An effect whose first vibrato bend is `{rate: +10, pause: 0,
length: 4}` (the shape of spec scenario 6). -/
def effC1 : Effect := { tremolos := [], vibratos := [⟨10, 0, 4⟩] }

/-- Effect state for `effC1`, rewound from the template. -/
def esC1 : EffectState :=
  { tremolos := [], vibratos := [⟨0, 4⟩], tremolo_loops := false
    vibrato_loops := false, vol_adjust := 0, period_adjust := 0 }

/-- A running sequence (`ttl = 2`) carrying `effC1`. -/
def seqC1 : Sequence :=
  { addr := 0, start_addr := 0, frames_per_beat := 0, transposition := 0
    instrument_idx := 0, note_len := 0, ttl := 2, effect := effC1
    effect_state := esC1, loop_stack := [] }

/-- Options with tremolo on and vibrato off. -/
def optsC1 : Options := { tremolo := true, vibrato := false, repeats := true }

/-- The sequence state after one `step_frame` of `seqC1` under
`optsC1`. -/
def seqC1W : Sequence :=
  { seqC1 with ttl := 1
               effect_state := { esC1 with vibratos := [⟨0, 3⟩]
                                           period_adjust := 10 } }

/-- The sample channel after one `step_frame` of `seqC1` under
`optsC1`. -/
def chanC1W : SampleChannel := { SampleChannel.new with pitch_adjust := 10 }

/-- A four-voice synth in the quiescent state (no instruments, no
sequences). -/
def quietSynth : Synth :=
  { channels := [SoundChannel.new, SoundChannel.new, SoundChannel.new,
      SoundChannel.new]
    stereo := true }

/-- `quietSynth` after one stereo fill of 6 samples at 50 Hz (each
channel ends one sample short of its next frame boundary). -/
def quietSynthW : Synth :=
  { channels := [{ SoundChannel.new with samples_remaining := 1 },
      { SoundChannel.new with samples_remaining := 1 },
      { SoundChannel.new with samples_remaining := 1 },
      { SoundChannel.new with samples_remaining := 1 }]
    stereo := true }

/-- A one-byte instrument used by the Note-opcode witness. -/
def instrC4 : Instrument :=
  { is_one_shot := true, loop_offset := 0, sample_len := 1, sample_addr := 1
    base_octave := 0 }

/-- A bank whose program is the single note opcode `0x3c`. -/
def bankC4 : SoundBank :=
  { data := [0x3c, 7, 249], instruments := [instrC4], sequences := [] }

/-- A sequence state about to execute the note, with transposition
`-16`. -/
def seqC4 : Sequence := { seqC1 with transposition := -16, note_len := 20 }

/-- A two-byte one-shot instrument. -/
def instrC5 : Instrument :=
  { is_one_shot := true, loop_offset := 0, sample_len := 1, sample_addr := 0
    base_octave := 0 }

/-- A sample channel that has just triggered `instrC5`. -/
def chanC5 : SampleChannel :=
  { instr := some instrC5, volume := 1, volume_adjust := 0, pitch := 0
    pitch_adjust := 0, phase := 0, lerp := false }

/-- A two-byte looped instrument (`loop_offset = 0`). -/
def instrC6 : Instrument :=
  { is_one_shot := false, loop_offset := 0, sample_len := 1, sample_addr := 0
    base_octave := 0 }

/-- A sample channel playing `instrC6` without interpolation. -/
def chanC6 : SampleChannel :=
  { instr := some instrC6, volume := 1, volume_adjust := 0, pitch := 0
    pitch_adjust := 0, phase := 0, lerp := false }

/-! ## Theorems -/

/-- C9: one `eval` step on the Tempo opcode (0x94) is total exactly for
a nonzero operand: `bpm ≠ 0` sets `frames_per_beat = 750 / bpm`
(integer division) and continues, while `bpm = 0` reaches the division
by zero (a panic, modelled by `none`). -/
theorem c9_tempo_totality (effects : List Effect) (bank : SoundBank)
    (seq : Sequence) (chan : SampleChannel) (opts : Options) (bpm : Nat)
    (hcode : bank.data[seq.addr]? = some 0x94)
    (hop : bank.data[seq.addr + 1]? = some bpm) :
    (bpm ≠ 0 → Sequence.eval effects bank seq chan opts =
      some (.Cont,
        { seq with addr := seq.addr + 2, frames_per_beat := 750 / bpm }, chan)) ∧
    (bpm = 0 → Sequence.eval effects bank seq chan opts = none) := by
  constructor <;> intro hbpm <;>
    simp [Sequence.eval, evalCode, hcode, hop, hbpm, Nat.add_assoc]

/-- Witness for C9 at a concrete input: `Tempo 150` yields
`frames_per_beat = 5`, and `Tempo 0` panics. -/
theorem c9_tempo_totality_witness :
    (Sequence.eval [] { bank0 with data := [0x94, 150] } seqC1
        SampleChannel.new optsC1 =
      some (.Cont, { seqC1 with addr := 2, frames_per_beat := 5 },
        SampleChannel.new)) ∧
    (Sequence.eval [] { bank0 with data := [0x94, 0] } seqC1
        SampleChannel.new optsC1 = none) := by
  constructor
  · have h := (c9_tempo_totality [] { bank0 with data := [0x94, 150] } seqC1
      SampleChannel.new optsC1 150 rfl rfl).1 (by decide)
    simpa [seqC1] using h
  · exact (c9_tempo_totality [] { bank0 with data := [0x94, 0] } seqC1
      SampleChannel.new optsC1 0 rfl rfl).2 rfl

/-- C8 counterexample: on the Next opcode with an empty loop stack,
`eval` panics (`last_mut().unwrap()`), modelled by `none`; it does not
return Stop. -/
theorem c8_counterexample :
    Sequence.eval [] { bank0 with data := [0xc4] } seqC1
      SampleChannel.new optsC1 = none := by
  simp [Sequence.eval, evalCode, bank0, seqC1]

/-- C8 amended: one `eval` step on the Next opcode (0xc4) with an empty
loop stack panics (the `unwrap` of `last_mut` fails), modelled by
`none`; the sequence does not end cleanly with Stop. -/
theorem c8_next_underflow (effects : List Effect) (bank : SoundBank)
    (seq : Sequence) (chan : SampleChannel) (opts : Options)
    (hcode : bank.data[seq.addr]? = some 0xc4)
    (hstack : seq.loop_stack = []) :
    Sequence.eval effects bank seq chan opts = none := by
  simp [Sequence.eval, evalCode, hcode, hstack]

/-- Witness for C8 (amended) at a concrete input. -/
theorem c8_next_underflow_witness :
    Sequence.eval [] { bank0 with data := [0xc4] } { seqC1 with ttl := 0 }
      SampleChannel.new Options.new = none :=
  c8_next_underflow [] { bank0 with data := [0xc4] }
    { seqC1 with ttl := 0 } SampleChannel.new Options.new rfl rfl

/-- C4: one `eval` step on a note opcode (`code < 0x80`) resets the
effect-state bends from the current effect's template, sets
`channel.pitch = code·4 + transposition` (the `usize` wrapping add,
which under the stated sign/size hypotheses is the plain sum), stores a
clone of `instruments[instrument_idx]` in the channel with `phase = 0`,
sets `ttl = note_len`, and returns Done. -/
theorem c4_note_opcode (effects : List Effect) (bank : SoundBank)
    (seq : Sequence) (chan : SampleChannel) (opts : Options)
    (code : Nat) (instr : Instrument)
    (hcode : bank.data[seq.addr]? = some code) (hlt : code < 0x80)
    (hinstr : bank.instruments[seq.instrument_idx]? = some instr)
    (hnn : 0 ≤ (code * 4 : Int) + seq.transposition)
    (hsz : (code * 4 : Int) + seq.transposition < 2 ^ 64) :
    Sequence.eval effects bank seq chan opts =
      some (.Done,
        { seq with addr := seq.addr + 1
                   effect_state := seq.effect_state.reset seq.effect
                   ttl := seq.note_len },
        { chan with pitch := ((code * 4 : Int) + seq.transposition).toNat
                    instr := some instr, phase := 0 }) := by
  have h64 : ((2 : Int) ^ 64) = 18446744073709551616 := by norm_num
  simp [Sequence.eval, evalCode, hcode, hlt, hinstr, SampleChannel.play,
    wrapAddSigned64, Int.emod_eq_of_lt hnn (h64 ▸ hsz)]

/-- Witness for C4 at a concrete input: note `0x3c` with transposition
`-16` plays instrument 0 at pitch `0x3c·4 - 16 = 224`. -/
theorem c4_note_opcode_witness :
    Sequence.eval [] bankC4 seqC4 SampleChannel.new optsC1 =
      some (.Done,
        { seqC4 with addr := 1
                     effect_state := seqC4.effect_state.reset seqC4.effect
                     ttl := seqC4.note_len },
        { SampleChannel.new with pitch := 224, instr := some instrC4
                                 phase := 0 }) := by
  have h := c4_note_opcode [] bankC4 seqC4 SampleChannel.new optsC1
    0x3c instrC4 rfl (by decide) rfl (by decide) (by decide)
  simpa [seqC4] using h

@[simp] theorem stop_hard_pitch_adjust (ch : SampleChannel) :
    ch.stop_hard.pitch_adjust = ch.pitch_adjust := rfl

@[simp] theorem stop_hard_volume_adjust (ch : SampleChannel) :
    ch.stop_hard.volume_adjust = ch.volume_adjust := rfl

@[simp] theorem stop_loop_pitch_adjust (ch : SampleChannel) :
    ch.stop_loop.pitch_adjust = ch.pitch_adjust := by
  cases h : ch.instr <;> simp [SampleChannel.stop_loop, h] <;> split <;> simp

@[simp] theorem stop_loop_volume_adjust (ch : SampleChannel) :
    ch.stop_loop.volume_adjust = ch.volume_adjust := by
  cases h : ch.instr <;> simp [SampleChannel.stop_loop, h] <;> split <;> simp

set_option maxHeartbeats 3200000 in
/-- The opcode dispatch never writes the `pitch_adjust` or
`volume_adjust` fields of the sample channel. -/
theorem evalCode_preserves_adjust (effects : List Effect) (bank : SoundBank)
    (code : Nat) (seq : Sequence) (chan : SampleChannel) (opts : Options)
    (r : EvalResult) (seq' : Sequence) (chan' : SampleChannel)
    (h : evalCode effects bank code seq chan opts = some (r, seq', chan')) :
    chan'.pitch_adjust = chan.pitch_adjust ∧
      chan'.volume_adjust = chan.volume_adjust := by
  unfold evalCode at h
  by_cases c0 : code < 0x80
  · rw [if_pos c0] at h
    repeat' split at h
    all_goals (try cases h)
    all_goals (try exact ⟨rfl, rfl⟩)
    all_goals (try exact ⟨stop_loop_pitch_adjust _, stop_loop_volume_adjust _⟩)
  rw [if_neg c0] at h
  by_cases c1 : code = 0x80
  · rw [if_pos c1] at h
    repeat' split at h
    all_goals (try cases h)
    all_goals (try exact ⟨rfl, rfl⟩)
    all_goals (try exact ⟨stop_loop_pitch_adjust _, stop_loop_volume_adjust _⟩)
  rw [if_neg c1] at h
  by_cases c2 : code = 0x88
  · rw [if_pos c2] at h
    repeat' split at h
    all_goals (try cases h)
    all_goals (try exact ⟨rfl, rfl⟩)
    all_goals (try exact ⟨stop_loop_pitch_adjust _, stop_loop_volume_adjust _⟩)
  rw [if_neg c2] at h
  by_cases c3 : code = 0x8c
  · rw [if_pos c3] at h
    repeat' split at h
    all_goals (try cases h)
    all_goals (try exact ⟨rfl, rfl⟩)
    all_goals (try exact ⟨stop_loop_pitch_adjust _, stop_loop_volume_adjust _⟩)
  rw [if_neg c3] at h
  by_cases c4 : code = 0x90
  · rw [if_pos c4] at h
    repeat' split at h
    all_goals (try cases h)
    all_goals (try exact ⟨rfl, rfl⟩)
    all_goals (try exact ⟨stop_loop_pitch_adjust _, stop_loop_volume_adjust _⟩)
  rw [if_neg c4] at h
  by_cases c5 : code = 0x94
  · rw [if_pos c5] at h
    repeat' split at h
    all_goals (try cases h)
    all_goals (try exact ⟨rfl, rfl⟩)
    all_goals (try exact ⟨stop_loop_pitch_adjust _, stop_loop_volume_adjust _⟩)
  rw [if_neg c5] at h
  by_cases c6 : code = 0x9c
  · rw [if_pos c6] at h
    repeat' split at h
    all_goals (try cases h)
    all_goals (try exact ⟨rfl, rfl⟩)
    all_goals (try exact ⟨stop_loop_pitch_adjust _, stop_loop_volume_adjust _⟩)
  rw [if_neg c6] at h
  by_cases c7 : code = 0xa8
  · rw [if_pos c7] at h
    repeat' split at h
    all_goals (try cases h)
    all_goals (try exact ⟨rfl, rfl⟩)
    all_goals (try exact ⟨stop_loop_pitch_adjust _, stop_loop_volume_adjust _⟩)
  rw [if_neg c7] at h
  by_cases c8 : code = 0xac
  · rw [if_pos c8] at h
    repeat' split at h
    all_goals (try cases h)
    all_goals (try exact ⟨rfl, rfl⟩)
    all_goals (try exact ⟨stop_loop_pitch_adjust _, stop_loop_volume_adjust _⟩)
  rw [if_neg c8] at h
  by_cases c9 : code = 0xb0
  · rw [if_pos c9] at h
    repeat' split at h
    all_goals (try cases h)
    all_goals (try exact ⟨rfl, rfl⟩)
    all_goals (try exact ⟨stop_loop_pitch_adjust _, stop_loop_volume_adjust _⟩)
  rw [if_neg c9] at h
  by_cases c10 : code = 0xb4
  · rw [if_pos c10] at h
    repeat' split at h
    all_goals (try cases h)
    all_goals (try exact ⟨rfl, rfl⟩)
    all_goals (try exact ⟨stop_loop_pitch_adjust _, stop_loop_volume_adjust _⟩)
  rw [if_neg c10] at h
  by_cases c11 : code = 0xb8
  · rw [if_pos c11] at h
    repeat' split at h
    all_goals (try cases h)
    all_goals (try exact ⟨rfl, rfl⟩)
    all_goals (try exact ⟨stop_loop_pitch_adjust _, stop_loop_volume_adjust _⟩)
  rw [if_neg c11] at h
  by_cases c12 : code = 0xbc
  · rw [if_pos c12] at h
    repeat' split at h
    all_goals (try cases h)
    all_goals (try exact ⟨rfl, rfl⟩)
    all_goals (try exact ⟨stop_loop_pitch_adjust _, stop_loop_volume_adjust _⟩)
  rw [if_neg c12] at h
  by_cases c13 : code = 0xc0
  · rw [if_pos c13] at h
    repeat' split at h
    all_goals (try cases h)
    all_goals (try exact ⟨rfl, rfl⟩)
    all_goals (try exact ⟨stop_loop_pitch_adjust _, stop_loop_volume_adjust _⟩)
  rw [if_neg c13] at h
  by_cases c14 : code = 0xc4
  · rw [if_pos c14] at h
    repeat' split at h
    all_goals (try cases h)
    all_goals (try exact ⟨rfl, rfl⟩)
    all_goals (try exact ⟨stop_loop_pitch_adjust _, stop_loop_volume_adjust _⟩)
  rw [if_neg c14] at h
  by_cases c15 : code = 0xd0
  · rw [if_pos c15] at h
    repeat' split at h
    all_goals (try cases h)
    all_goals (try exact ⟨rfl, rfl⟩)
    all_goals (try exact ⟨stop_loop_pitch_adjust _, stop_loop_volume_adjust _⟩)
  rw [if_neg c15] at h
  by_cases c16 : code = 0xd4
  · rw [if_pos c16] at h
    repeat' split at h
    all_goals (try cases h)
    all_goals (try exact ⟨rfl, rfl⟩)
    all_goals (try exact ⟨stop_loop_pitch_adjust _, stop_loop_volume_adjust _⟩)
  rw [if_neg c16] at h
  cases h
  exact ⟨rfl, rfl⟩

/-- `Sequence::eval` never writes the `pitch_adjust` or `volume_adjust`
fields of the sample channel. -/
theorem eval_preserves_adjust (effects : List Effect) (bank : SoundBank)
    (seq : Sequence) (chan : SampleChannel) (opts : Options)
    (r : EvalResult) (seq' : Sequence) (chan' : SampleChannel)
    (h : Sequence.eval effects bank seq chan opts = some (r, seq', chan')) :
    chan'.pitch_adjust = chan.pitch_adjust ∧
      chan'.volume_adjust = chan.volume_adjust := by
  unfold Sequence.eval at h
  split at h
  · cases h
  · exact evalCode_preserves_adjust _ _ _ _ _ _ _ _ _ h

/-- The dispatch loop preserves the adjust fields. -/
theorem evalLoop_preserves_adjust (effects : List Effect) (bank : SoundBank)
    (opts : Options) :
    ∀ (fuel : Nat) (seq : Sequence) (chan : SampleChannel) (r : EvalResult)
      (seq' : Sequence) (chan' : SampleChannel),
      evalLoop effects bank opts fuel seq chan = some (r, seq', chan') →
      chan'.pitch_adjust = chan.pitch_adjust ∧
        chan'.volume_adjust = chan.volume_adjust := by
  intro fuel
  induction fuel with
  | zero => intro _ _ _ _ _ h; cases h
  | succ n ih =>
    intro seq chan r seq' chan' h
    unfold evalLoop at h
    split at h
    · cases h
    next res s1 c1 he =>
      have hp := eval_preserves_adjust effects bank seq chan opts res s1 c1 he
      split_ifs at h
      · have hl := ih s1 c1 r seq' chan' h
        exact ⟨hl.1.trans hp.1, hl.2.trans hp.2⟩
      · cases h
        exact hp

/-- `Sequence::update` preserves the adjust fields. -/
theorem update_preserves_adjust (effects : List Effect) (bank : SoundBank)
    (evalFuel : Nat) (seq : Sequence) (chan : SampleChannel) (opts : Options)
    (b : Bool) (seq' : Sequence) (chan' : SampleChannel)
    (h : Sequence.update effects bank evalFuel seq chan opts =
      some (b, seq', chan')) :
    chan'.pitch_adjust = chan.pitch_adjust ∧
      chan'.volume_adjust = chan.volume_adjust := by
  unfold Sequence.update at h
  split_ifs at h
  · cases h; exact ⟨rfl, rfl⟩
  split at h
  · cases h
  next res s1 c1 hl =>
    have hp := evalLoop_preserves_adjust effects bank opts evalFuel seq chan
      res s1 c1 hl
    split_ifs at h <;> cases h <;> simp_all

@[simp] theorem step_vibrato_period_adjust (es : EffectState) (e : Effect) :
    (es.step_vibrato e).period_adjust = es.period_adjust := rfl

@[simp] theorem step_tremolo_vol_adjust (es : EffectState) (e : Effect) :
    (es.step_tremolo e).vol_adjust = es.vol_adjust := rfl

/-- C1 counterexample: a frame tick with tremolo enabled and **vibrato
disabled** still pushes a nonzero accumulated `period_adjust` into
`channel.pitch_adjust` (the push is gated by the tremolo option, not
the vibrato option), refuting "with the vibrato option disabled,
`channel.pitch_adjust` stays frozen at 0". -/
theorem c1_counterexample :
    optsC1.vibrato = false ∧
    (Sequence.step_frame [] bank0 1 seqC1 SampleChannel.new optsC1).map
        (fun r => (r.1, r.2.2.pitch_adjust)) = some (true, 10) := by
  constructor
  · rfl
  · rfl

/-- C1 amended: after a frame tick that leaves the sequence running,
the accumulated `period_adjust` is pushed to the sample channel as
`pitch_adjust` iff the **tremolo** option is enabled, and the
accumulated `vol_adjust` is pushed as `volume_adjust = vol_adjust / 64`
iff the **vibrato** option is enabled (the option gates are swapped
relative to the audible effect names); with the tremolo option
disabled, `pitch_adjust` keeps its previous value. -/
theorem c1_adjust_gating (effects : List Effect) (bank : SoundBank)
    (evalFuel : Nat) (seq : Sequence) (chan : SampleChannel) (opts : Options)
    (seq' : Sequence) (chan' : SampleChannel)
    (h : Sequence.step_frame effects bank evalFuel seq chan opts =
      some (true, seq', chan')) :
    (chan'.pitch_adjust =
      if opts.tremolo then seq'.effect_state.period_adjust
      else chan.pitch_adjust) ∧
    (chan'.volume_adjust =
      if opts.vibrato then (seq'.effect_state.vol_adjust : ℚ) / MAX_VOLUME
      else chan.volume_adjust) := by
  unfold Sequence.step_frame at h
  rcases hu : Sequence.update effects bank evalFuel seq chan opts
    with _ | ⟨⟨b, s1, c1⟩⟩
  · rw [hu] at h; cases h
  rw [hu] at h
  have hp := update_preserves_adjust effects bank evalFuel seq chan opts
    b s1 c1 hu
  cases b
  · simp at h
  · simp only [] at h
    by_cases ht : opts.tremolo <;> by_cases hv : opts.vibrato <;>
      simp only [ht, hv, if_true, if_false, reduceIte] at h ⊢ <;>
      cases h <;>
      simp_all

/-- Witness for C1 (amended) at a concrete input: with tremolo on and
vibrato off, the pushed `pitch_adjust` equals the accumulated
`period_adjust` and `volume_adjust` is left alone. -/
theorem c1_adjust_gating_witness :
    (chanC1W.pitch_adjust =
      if optsC1.tremolo then seqC1W.effect_state.period_adjust
      else SampleChannel.new.pitch_adjust) ∧
    (chanC1W.volume_adjust =
      if optsC1.vibrato then (seqC1W.effect_state.vol_adjust : ℚ) / MAX_VOLUME
      else SampleChannel.new.volume_adjust) :=
  c1_adjust_gating [] bank0 1 seqC1 SampleChannel.new optsC1 seqC1W chanC1W rfl

/-- `resetStates` rewinds the zipped prefix and keeps the tail. -/
theorem resetStates_eq (bends : List Bend) :
    ∀ states : List BendState,
      resetStates bends states =
        (bends.take states.length).map BendState.from'
          ++ states.drop bends.length := by
  induction bends with
  | nil => intro states; simp [resetStates]
  | cons fx bends ih =>
    intro states
    cases states with
    | nil => simp [resetStates]
    | cons st states => simp [resetStates, ih]

/-- The scan pass of the source equals the declarative search: either
the first firing index is found (prefix pause-decremented, firing state
rewritten, suffix untouched) or the whole zipped region is
pause-decremented. -/
theorem stepScan_spec (bends : List Bend) :
    ∀ states : List BendState,
      stepScan bends states =
        match (bends.zip states).findIdx? (fun p => firesB p.2) with
        | some i =>
          (some ((bends.zip states).getD i (⟨0, 0, 0⟩, ⟨0, 0⟩)).1.rate,
            (states.take i).map skipUpdate
              ++ ({ pause_count :=
                      ((bends.zip states).getD i (⟨0, 0, 0⟩, ⟨0, 0⟩)).1.pause
                    length_count :=
                      ((bends.zip states).getD i (⟨0, 0, 0⟩, ⟨0, 0⟩)).2.length_count
                        - 1 } : BendState)
              :: states.drop (i + 1))
        | none =>
          (none,
            (states.take bends.length).map skipUpdate
              ++ states.drop bends.length) := by
  induction bends with
  | nil => intro states; simp [stepScan]
  | cons fx bends ih =>
    intro states
    cases states with
    | nil => simp [stepScan]
    | cons st states =>
      rcases hsc : stepScan bends states with ⟨r, sts⟩
      have ih' := ih states
      rw [hsc] at ih'
      by_cases hp : st.pause_count > 0
      · have hf : firesB st = false := by
          simp only [firesB, Bool.and_eq_false_iff, beq_eq_false_iff_ne, ne_eq]
          omega
        have hstep : stepScan (fx :: bends) (st :: states)
            = (r, { st with pause_count := st.pause_count - 1 } :: sts) := by
          simp [stepScan, hp, hsc]
        rw [hstep, List.zip_cons_cons]
        simp only [List.findIdx?_cons, hf, Bool.false_eq_true, if_false,
          List.findIdx?_succ]
        cases hidx : (bends.zip states).findIdx? (fun p => firesB p.2) with
        | none =>
          simp only [hidx, Option.map_none'] at ih' ⊢
          simp only [Prod.mk.injEq] at ih'
          obtain ⟨rfl, rfl⟩ := ih'
          simp [skipUpdate, hp]
        | some i =>
          simp only [hidx, Option.map_some'] at ih' ⊢
          simp only [Prod.mk.injEq] at ih'
          obtain ⟨rfl, rfl⟩ := ih'
          simp [skipUpdate, hp]
      · by_cases hl : st.length_count = 0
        · have hf : firesB st = false := by simp [firesB, hl]
          have hstep : stepScan (fx :: bends) (st :: states) = (r, st :: sts) := by
            simp [stepScan, hp, hl, hsc]
          have hskip : skipUpdate st = st := by simp [skipUpdate, hp]
          rw [hstep, List.zip_cons_cons]
          simp only [List.findIdx?_cons, hf, Bool.false_eq_true, if_false,
            List.findIdx?_succ]
          cases hidx : (bends.zip states).findIdx? (fun p => firesB p.2) with
          | none =>
            simp only [hidx, Option.map_none'] at ih' ⊢
            simp only [Prod.mk.injEq] at ih'
            obtain ⟨rfl, rfl⟩ := ih'
            simp [hskip]
          | some i =>
            simp only [hidx, Option.map_some'] at ih' ⊢
            simp only [Prod.mk.injEq] at ih'
            obtain ⟨rfl, rfl⟩ := ih'
            simp [hskip]
        · have hf : firesB st = true := by
            simp only [firesB, Bool.and_eq_true, beq_iff_eq, ne_eq, bne_iff_ne]
            omega
          have hstep : stepScan (fx :: bends) (st :: states)
              = (some fx.rate,
                  { pause_count := fx.pause
                    length_count := st.length_count - 1 } :: states) := by
            simp [stepScan, hp, hl]
          rw [hstep, List.zip_cons_cons]
          simp [List.findIdx?_cons, hf]

/-- C3: `EffectState::step` coincides with the declarative
specification `stepSpec` for every bend array, bend-state array and
looping flag: pausing pairs are decremented and skipped, exhausted
pairs are skipped, the first live pair fires immediately (length
decremented, pause reloaded, rate returned), and on fall-through the
bend states are rewound from their templates exactly when `loops` is
set. -/
theorem c3_step_matches_spec (bends : List Bend) (states : List BendState)
    (loops : Bool) :
    EffectState.step bends states loops = stepSpec bends states loops := by
  unfold EffectState.step
  rw [stepScan_spec]
  simp only [stepSpec]
  cases hidx : (bends.zip states).findIdx? (fun p => firesB p.2) with
  | some i => simp only [hidx]
  | none =>
    simp only [hidx]
    cases loops with
    | false => simp
    | true =>
      simp only [Bool.true_eq_false, if_true, reduceIte]
      rw [resetStates_eq]

/-- A sample channel holding no instrument renders pure equilibrium and
is left unchanged. -/
theorem fill_buffer_no_instr (pitches : Nat → Nat) (mem : List Nat)
    (sample_rate : Nat) (ch : SampleChannel) (n : Nat)
    (h : ch.instr = none) :
    SampleChannel.fill_buffer pitches mem sample_rate ch n =
      some (ch, List.replicate n 0) := by
  simp [SampleChannel.fill_buffer, h]

/-- The frame loop of a quiescent sound channel (no instrument, no
sequence) either runs out of fuel or renders pure equilibrium. -/
theorem soundFillLoop_quiet (pitches : Nat → Nat) (effects : List Effect)
    (bank : SoundBank) (evalFuel sample_rate spf : Nat) :
    ∀ (fuel : Nat) (st : SoundChannel) (len : Nat),
      st.sample_channel.instr = none → st.sequence = none →
      soundFillLoop pitches effects bank evalFuel sample_rate spf fuel st len
          = none ∨
        ∃ st', soundFillLoop pitches effects bank evalFuel sample_rate spf
            fuel st len = some (st', List.replicate len 0) := by
  intro fuel
  induction fuel with
  | zero => intro st len _ _; exact Or.inl rfl
  | succ n ih =>
    intro st len hi hs
    have h1 := fill_buffer_no_instr pitches bank.data sample_rate
      st.sample_channel st.samples_remaining hi
    have h2 : seqTick effects bank evalFuel st.sequence st.sample_channel
        st.options = some (none, st.sample_channel) := by simp [seqTick, hs]
    by_cases hc : st.samples_remaining ≤ len
    · rw [soundFillLoop, if_pos hc]
      simp only [h1, h2]
      rcases ih { st with sample_channel := st.sample_channel, sequence := none
                          samples_remaining := spf }
          (len - st.samples_remaining) hi rfl with hnone | ⟨st'', h3⟩
      · exact Or.inl (by simp [hnone])
      · simp only [h3]
        refine Or.inr ⟨st'', ?_⟩
        rw [← List.replicate_add]
        have hlen : st.samples_remaining + (len - st.samples_remaining) = len := by
          omega
        rw [hlen]
    · rw [soundFillLoop, if_neg hc]
      have h1' := fill_buffer_no_instr pitches bank.data sample_rate
        st.sample_channel len hi
      simp only [h1']
      exact Or.inr ⟨_, rfl⟩

/-- `getD` of an all-equilibrium scratch buffer. -/
theorem getD_replicate_zero (n i : Nat) :
    (List.replicate n (0 : ℚ)).getD i 0 = 0 := by
  simp only [List.getD_eq_getElem?_getD, List.getElem?_replicate]
  split <;> simp

/-- Mixing in an all-equilibrium scratch buffer does not change the
output. -/
theorem mixInto_zero (scale : ℚ) (out : List ℚ) (offset nc m : Nat) :
    mixInto scale out offset nc (List.replicate m 0) = out := by
  unfold mixInto
  simp [getD_replicate_zero, List.enum_map_snd]

/-- Mono-mixing an all-equilibrium scratch buffer does not change the
output. -/
theorem monoMix_zero (scale : ℚ) (out : List ℚ) (nc m : Nat) :
    monoMix scale out nc (List.replicate m 0) = out := by
  unfold monoMix
  simp [getD_replicate_zero, List.enum_map_snd]

/-- The stereo channel loop over quiescent channels either runs out of
fuel or leaves the accumulated output untouched. -/
theorem stereoMixLoop_quiet (pitches : Nat → Nat) (effects : List Effect)
    (bank : SoundBank) (frameFuel evalFuel sample_rate nc tmpLen : Nat)
    (scale : ℚ) :
    ∀ (chs : List SoundChannel) (idx : Nat) (out : List ℚ),
      (∀ ch ∈ chs, ch.sample_channel.instr = none ∧ ch.sequence = none) →
      stereoMixLoop pitches effects bank frameFuel evalFuel sample_rate nc
          tmpLen scale chs idx out = none ∨
        ∃ chs', stereoMixLoop pitches effects bank frameFuel evalFuel
            sample_rate nc tmpLen scale chs idx out = some (chs', out) := by
  intro chs
  induction chs with
  | nil => intro idx out _; exact Or.inr ⟨[], rfl⟩
  | cons ch rest ih =>
    intro idx out hq
    have hch := hq ch (List.mem_cons_self ch rest)
    rcases soundFillLoop_quiet pitches effects bank evalFuel sample_rate
        (sample_rate / 50) frameFuel ch tmpLen hch.1 hch.2 with hnone | ⟨ch', hsome⟩
    · rw [stereoMixLoop]
      exact Or.inl (by simp [SoundChannel.fill_buffer, hnone])
    · rw [stereoMixLoop]
      simp only [SoundChannel.fill_buffer, hsome]
      simp only [mixInto_zero]
      rcases ih (idx + 1) out
          (fun c hc => hq c (List.mem_cons_of_mem ch hc)) with hnone' | ⟨chs', h'⟩
      · exact Or.inl (by simp [hnone'])
      · simp only [h']
        exact Or.inr ⟨ch' :: chs', rfl⟩

/-- The mono channel loop over quiescent channels either runs out of
fuel or leaves the accumulated output untouched. -/
theorem monoMixLoop_quiet (pitches : Nat → Nat) (effects : List Effect)
    (bank : SoundBank) (frameFuel evalFuel sample_rate nc tmpLen : Nat)
    (scale : ℚ) :
    ∀ (chs : List SoundChannel) (out : List ℚ),
      (∀ ch ∈ chs, ch.sample_channel.instr = none ∧ ch.sequence = none) →
      monoMixLoop pitches effects bank frameFuel evalFuel sample_rate nc
          tmpLen scale chs out = none ∨
        ∃ chs', monoMixLoop pitches effects bank frameFuel evalFuel
            sample_rate nc tmpLen scale chs out = some (chs', out) := by
  intro chs
  induction chs with
  | nil => intro out _; exact Or.inr ⟨[], rfl⟩
  | cons ch rest ih =>
    intro out hq
    have hch := hq ch (List.mem_cons_self ch rest)
    rcases soundFillLoop_quiet pitches effects bank evalFuel sample_rate
        (sample_rate / 50) frameFuel ch tmpLen hch.1 hch.2 with hnone | ⟨ch', hsome⟩
    · rw [monoMixLoop]
      exact Or.inl (by simp [SoundChannel.fill_buffer, hnone])
    · rw [monoMixLoop]
      simp only [SoundChannel.fill_buffer, hsome]
      simp only [monoMix_zero]
      rcases ih out (fun c hc => hq c (List.mem_cons_of_mem ch hc))
          with hnone' | ⟨chs', h'⟩
      · exact Or.inl (by simp [hnone'])
      · simp only [h']
        exact Or.inr ⟨ch' :: chs', rfl⟩

/-- C2: if every channel holds no instrument and no sequence, then any
completed `Synth::fill_buffer` call writes exactly equilibrium (`0`)
into every output sample, for any `(num_channels, sample_rate)`. -/
theorem c2_silence (pitches : Nat → Nat) (effects : List Effect)
    (bank : SoundBank) (frameFuel evalFuel : Nat) (synth : Synth)
    (num_channels sample_rate len : Nat) (synth' : Synth) (out : List ℚ)
    (hq : ∀ ch ∈ synth.channels,
      ch.sample_channel.instr = none ∧ ch.sequence = none)
    (h : Synth.fill_buffer pitches effects bank frameFuel evalFuel synth
      num_channels sample_rate len = some (synth', out)) :
    out = List.replicate len 0 := by
  simp only [Synth.fill_buffer] at h
  split_ifs at h with h0 hst
  · rcases stereoMixLoop_quiet pitches effects bank frameFuel evalFuel
        sample_rate num_channels (len / num_channels)
        (1 / (synth.channels.length : ℚ)) synth.channels 0
        (List.replicate len 0) hq with hnone | ⟨chs', hsome⟩
    · simp only [hnone] at h
      exact absurd h (by simp)
    · simp only [hsome, Option.some.injEq, Prod.mk.injEq] at h
      exact h.2.symm
  · rcases monoMixLoop_quiet pitches effects bank frameFuel evalFuel
        sample_rate num_channels (len / num_channels)
        (1 / (synth.channels.length : ℚ)) synth.channels
        (List.replicate len 0) hq with hnone | ⟨chs', hsome⟩
    · simp only [hnone] at h
      exact absurd h (by simp)
    · simp only [hsome, Option.some.injEq, Prod.mk.injEq] at h
      exact h.2.symm

/-- A concrete evaluation: a stereo fill of 6 samples at 50 Hz on the
quiescent synth succeeds and is all-equilibrium. -/
theorem quiet_fill_eq :
    Synth.fill_buffer (fun _ => 1) [] bank0 8 1 quietSynth 2 50 6 =
      some (quietSynthW, [0, 0, 0, 0, 0, 0]) := by
  norm_num [Synth.fill_buffer, quietSynth, quietSynthW, stereoMixLoop,
    SoundChannel.fill_buffer, soundFillLoop, seqTick,
    SampleChannel.fill_buffer, SoundChannel.new, SampleChannel.new,
    mixInto, List.enum, List.enumFrom, List.replicate, calc_time_step,
    Options.new, bank0]

/-- Witness for C2 at a concrete input. -/
theorem c2_silence_witness :
    (∀ ch ∈ quietSynth.channels,
      ch.sample_channel.instr = none ∧ ch.sequence = none) ∧
    ([0, 0, 0, 0, 0, 0] : List ℚ) = List.replicate 6 0 :=
  ⟨by decide,
    c2_silence (fun _ => 1) [] bank0 8 1 quietSynth 2 50 6 quietSynthW
      [0, 0, 0, 0, 0, 0] (by decide) quiet_fill_eq⟩

/-- With `samples_per_frame = 0` the frame loop never reaches its
residual exit: every fuel bound is exhausted (the Rust loop never
terminates). -/
theorem soundFillLoop_no_frames (pitches : Nat → Nat) (effects : List Effect)
    (bank : SoundBank) (evalFuel sample_rate : Nat) :
    ∀ (fuel : Nat) (st : SoundChannel) (len : Nat),
      st.samples_remaining ≤ len →
      soundFillLoop pitches effects bank evalFuel sample_rate 0 fuel st len
        = none := by
  intro fuel
  induction fuel with
  | zero => intro st len _; rfl
  | succ n ih =>
    intro st len hle
    rw [soundFillLoop, if_pos hle]
    cases h1 : SampleChannel.fill_buffer pitches bank.data sample_rate
        st.sample_channel st.samples_remaining with
    | none => simp only [h1]
    | some p1 =>
      simp only [h1]
      cases h2 : seqTick effects bank evalFuel st.sequence p1.1 st.options with
      | none => simp only [h2]
      | some p2 =>
        simp only [h2]
        rw [ih _ _ (Nat.zero_le _)]

/-- With `samples_per_frame ≥ 1`, a quiescent channel whose frame
counter is live finishes a fill of `len` samples within `len + 1` loop
iterations. -/
theorem soundFillLoop_quiet_some (pitches : Nat → Nat) (effects : List Effect)
    (bank : SoundBank) (evalFuel sample_rate spf : Nat) (hspf : 1 ≤ spf) :
    ∀ (len fuel : Nat) (st : SoundChannel), len + 1 ≤ fuel →
      1 ≤ st.samples_remaining → st.sample_channel.instr = none →
      st.sequence = none →
      ∃ r, soundFillLoop pitches effects bank evalFuel sample_rate spf fuel
        st len = some r := by
  intro len
  induction len using Nat.strong_induction_on with
  | _ len ih =>
    intro fuel st hfuel hsr hi hs
    obtain ⟨n, rfl⟩ : ∃ n, fuel = n + 1 := ⟨fuel - 1, by omega⟩
    have h1 := fill_buffer_no_instr pitches bank.data sample_rate
      st.sample_channel st.samples_remaining hi
    have h2 : seqTick effects bank evalFuel st.sequence st.sample_channel
        st.options = some (none, st.sample_channel) := by simp [seqTick, hs]
    by_cases hc : st.samples_remaining ≤ len
    · rw [soundFillLoop, if_pos hc]
      simp only [h1, h2]
      obtain ⟨r, hr⟩ := ih (len - st.samples_remaining) (by omega) n
        { st with sample_channel := st.sample_channel, sequence := none
                  samples_remaining := spf }
        (by omega) (by simpa using hspf) (by simpa using hi) rfl
      rw [hr]
      exact ⟨_, rfl⟩
    · rw [soundFillLoop, if_neg hc]
      have h1' := fill_buffer_no_instr pitches bank.data sample_rate
        st.sample_channel len hi
      simp only [h1']
      exact ⟨_, rfl⟩

/-- C10: the fill loop of `SoundChannel::fill_buffer` terminates
exactly under `sample_rate ≥ 50`. With `sample_rate < 50` we have
`samples_per_frame = sample_rate / 50 = 0` and, whenever the loop is
entered at all (`samples_remaining ≤ len`, which holds from the initial
state `samples_remaining = 0`), no amount of fuel completes the fill —
the Rust loop never terminates. With `sample_rate ≥ 50` a fill of `len`
samples of a quiescent channel completes within `len + 2` iterations. -/
theorem c10_fill_termination (pitches : Nat → Nat) (effects : List Effect)
    (bank : SoundBank) (evalFuel : Nat) :
    (∀ (frameFuel : Nat) (st : SoundChannel) (sample_rate len : Nat),
      sample_rate < 50 → st.samples_remaining ≤ len →
      SoundChannel.fill_buffer pitches effects bank frameFuel evalFuel st
        sample_rate len = none) ∧
    (∀ (st : SoundChannel) (sample_rate len : Nat),
      50 ≤ sample_rate → st.sample_channel.instr = none →
      st.sequence = none →
      ∃ r, SoundChannel.fill_buffer pitches effects bank (len + 2) evalFuel st
        sample_rate len = some r) := by
  constructor
  · intro frameFuel st sample_rate len hsr hle
    unfold SoundChannel.fill_buffer
    rw [Nat.div_eq_of_lt hsr]
    exact soundFillLoop_no_frames pitches effects bank evalFuel sample_rate
      frameFuel st len hle
  · intro st sample_rate len hsr hi hs
    unfold SoundChannel.fill_buffer
    have hspf : 1 ≤ sample_rate / 50 :=
      (Nat.one_le_div_iff (by omega)).mpr hsr
    by_cases hc : 1 ≤ st.samples_remaining
    · exact soundFillLoop_quiet_some pitches effects bank evalFuel sample_rate
        (sample_rate / 50) hspf len (len + 2) st (by omega) hc hi hs
    · have hs0 : st.samples_remaining = 0 := by omega
      have hstep : len + 2 = (len + 1) + 1 := rfl
      rw [hstep, soundFillLoop, if_pos (by omega)]
      have h1 := fill_buffer_no_instr pitches bank.data sample_rate
        st.sample_channel st.samples_remaining hi
      have h2 : seqTick effects bank evalFuel st.sequence st.sample_channel
          st.options = some (none, st.sample_channel) := by simp [seqTick, hs]
      simp only [h1, h2]
      obtain ⟨r, hr⟩ := soundFillLoop_quiet_some pitches effects bank evalFuel
        sample_rate (sample_rate / 50) hspf (len - st.samples_remaining)
        (len + 1)
        { st with sample_channel := st.sample_channel, sequence := none
                  samples_remaining := sample_rate / 50 }
        (by omega) (by simpa using hspf) (by simpa using hi) rfl
      rw [hr]
      exact ⟨_, rfl⟩

/-- Witness for C10 at concrete inputs: from the initial channel state,
a fill of 2 samples diverges at 49 Hz and completes at 50 Hz. -/
theorem c10_fill_termination_witness :
    (SoundChannel.fill_buffer (fun _ => 1) [] bank0 7 1 SoundChannel.new
      49 2 = none) ∧
    (∃ r, SoundChannel.fill_buffer (fun _ => 1) [] bank0 4 1 SoundChannel.new
      50 2 = some r) :=
  ⟨(c10_fill_termination (fun _ => 1) [] bank0 1).1 7 SoundChannel.new 49 2
      (by decide) (by decide),
    (c10_fill_termination (fun _ => 1) [] bank0 1).2 SoundChannel.new 50 2
      (by decide) rfl rfl⟩

/-- The sample fill loop produces exactly the requested number of
samples. -/
theorem sampleFillLoop_length (mem : List Nat) (instrument : Instrument)
    (vol step : ℚ) (lerp : Bool) :
    ∀ (n : Nat) (phase : ℚ) (oi : Option Instrument) (ph : ℚ) (out : List ℚ),
      sampleFillLoop mem instrument vol step lerp n phase =
        some (oi, ph, out) → out.length = n := by
  intro n
  induction n with
  | zero =>
    intro phase oi ph out h
    cases h
    rfl
  | succ n ih =>
    intro phase oi ph out h
    cases ho : oneSample mem instrument vol step lerp phase with
    | none =>
      simp only [sampleFillLoop, ho] at h
      cases h
    | some p =>
      obtain ⟨ov, ph'⟩ := p
      cases ov with
      | none =>
        simp only [sampleFillLoop, ho] at h
        cases h
        simp
      | some v =>
        simp only [sampleFillLoop, ho] at h
        cases hr : sampleFillLoop mem instrument vol step lerp n ph' with
        | none =>
          simp only [hr] at h
          cases h
        | some q =>
          obtain ⟨oi2, ph2, out2⟩ := q
          simp only [hr] at h
          cases h
          simp [ih ph' _ _ _ hr]

/-- `SampleChannel::fill_buffer` produces exactly the requested number
of samples. -/
theorem fill_buffer_length (pitches : Nat → Nat) (mem : List Nat)
    (sample_rate : Nat) (ch : SampleChannel) (n : Nat)
    (ch' : SampleChannel) (out : List ℚ)
    (h : SampleChannel.fill_buffer pitches mem sample_rate ch n =
      some (ch', out)) : out.length = n := by
  unfold SampleChannel.fill_buffer at h
  cases hi : ch.instr with
  | none =>
    simp only [hi] at h
    cases h
    simp
  | some instrument =>
    simp only [hi] at h
    cases hr : sampleFillLoop mem instrument (ch.volume + ch.volume_adjust)
        (1 / (calc_time_step pitches ch * (sample_rate : ℚ))) ch.lerp n
        ch.phase with
    | none =>
      simp only [hr] at h
      cases h
    | some q =>
      obtain ⟨oi, ph, out2⟩ := q
      simp only [hr] at h
      cases h
      exact sampleFillLoop_length mem instrument _ _ ch.lerp n ch.phase _ _ _ hr

/-- The frame loop produces exactly the requested number of samples. -/
theorem soundFillLoop_length (pitches : Nat → Nat) (effects : List Effect)
    (bank : SoundBank) (evalFuel sample_rate spf : Nat) :
    ∀ (fuel : Nat) (st : SoundChannel) (len : Nat) (st' : SoundChannel)
      (out : List ℚ),
      soundFillLoop pitches effects bank evalFuel sample_rate spf fuel st len
        = some (st', out) → out.length = len := by
  intro fuel
  induction fuel with
  | zero => intro st len st' out h; cases h
  | succ n ih =>
    intro st len st' out h
    rw [soundFillLoop] at h
    split_ifs at h with hc
    · cases h1 : SampleChannel.fill_buffer pitches bank.data sample_rate
          st.sample_channel st.samples_remaining with
      | none =>
        simp only [h1] at h
        cases h
      | some p1 =>
        obtain ⟨sc1, out1⟩ := p1
        simp only [h1] at h
        cases h2 : seqTick effects bank evalFuel st.sequence sc1
            st.options with
        | none =>
          simp only [h2] at h
          cases h
        | some p2 =>
          obtain ⟨seq', sc2⟩ := p2
          simp only [h2] at h
          cases h3 : soundFillLoop pitches effects bank evalFuel sample_rate
              spf n { st with sample_channel := sc2, sequence := seq'
                              samples_remaining := spf }
              (len - st.samples_remaining) with
          | none =>
            simp only [h3] at h
            cases h
          | some q =>
            obtain ⟨stF, outRest⟩ := q
            simp only [h3] at h
            cases h
            have l1 := fill_buffer_length pitches bank.data sample_rate
              st.sample_channel st.samples_remaining _ _ h1
            have l2 := ih _ _ _ _ h3
            simp [List.length_append, l1, l2]
            omega
    · cases h1 : SampleChannel.fill_buffer pitches bank.data sample_rate
          st.sample_channel len with
      | none =>
        simp only [h1] at h
        cases h
      | some p1 =>
        obtain ⟨sc1, out1⟩ := p1
        simp only [h1] at h
        cases h
        exact fill_buffer_length pitches bank.data sample_rate
          st.sample_channel len _ _ h1

/-- `mixInto` keeps the output length. -/
theorem mixInto_length (scale : ℚ) (out : List ℚ) (offset nc : Nat)
    (tmp : List ℚ) : (mixInto scale out offset nc tmp).length = out.length := by
  simp [mixInto]

/-- Entry-wise reading of `mixInto`: index `j` gets a contribution
exactly when it is of the form `offset + k · nc` with `k` inside the
scratch buffer. -/
theorem mixInto_getD (scale : ℚ) (out : List ℚ) (offset nc : Nat)
    (tmp : List ℚ) (j : Nat) (hj : j < out.length) :
    (mixInto scale out offset nc tmp).getD j 0 =
      if offset ≤ j ∧ (j - offset) % nc = 0 ∧ (j - offset) / nc < tmp.length
      then out.getD j 0 + scale * tmp.getD ((j - offset) / nc) 0
      else out.getD j 0 := by
  unfold mixInto
  rw [List.getD_eq_getElem?_getD, List.getElem?_map, List.getElem?_enum]
  rw [List.getD_eq_getElem?_getD]
  cases hx : out[j]? with
  | none =>
    exfalso
    rw [List.getElem?_eq_none_iff] at hx
    omega
  | some x => simp

/-- C7: with stereo enabled and `num_channels ≥ 2`, the four channels
`c0 c1 c2 c3` of the synth each render `len / num_channels` samples via
`SoundChannel.fill_buffer` (the renders `t0 t1 t2 t3` are pinned by
those equations), and writing output index `j = q · num_channels + r`
(frame `q`, lane `r`): lane 0 receives exactly the `1/4`-scaled
contributions of channels 0 and 2, lane 1 those of channels 1 and 3,
and every lane `r ≥ 2` (and the trailing partial frame) stays at
equilibrium. -/
theorem c7_stereo_routing (pitches : Nat → Nat) (effects : List Effect)
    (bank : SoundBank) (frameFuel evalFuel : Nat) (synth : Synth)
    (c0 c1 c2 c3 : SoundChannel)
    (num_channels sample_rate len : Nat) (synth' : Synth) (out : List ℚ)
    (hstereo : synth.stereo = true) (hnc : 2 ≤ num_channels)
    (hch : synth.channels = [c0, c1, c2, c3])
    (h : Synth.fill_buffer pitches effects bank frameFuel evalFuel synth
      num_channels sample_rate len = some (synth', out)) :
    ∃ st0 st1 st2 st3 : SoundChannel, ∃ t0 t1 t2 t3 : List ℚ,
      SoundChannel.fill_buffer pitches effects bank frameFuel evalFuel
        c0 sample_rate (len / num_channels) = some (st0, t0) ∧
      SoundChannel.fill_buffer pitches effects bank frameFuel evalFuel
        c1 sample_rate (len / num_channels) = some (st1, t1) ∧
      SoundChannel.fill_buffer pitches effects bank frameFuel evalFuel
        c2 sample_rate (len / num_channels) = some (st2, t2) ∧
      SoundChannel.fill_buffer pitches effects bank frameFuel evalFuel
        c3 sample_rate (len / num_channels) = some (st3, t3) ∧
      t0.length = len / num_channels ∧ t1.length = len / num_channels ∧
      t2.length = len / num_channels ∧ t3.length = len / num_channels ∧
      out.length = len ∧
      ∀ q r : Nat, r < num_channels → q * num_channels + r < len →
        out.getD (q * num_channels + r) 0 =
          if q < len / num_channels then
            if r = 0 then (t0.getD q 0 + t2.getD q 0) / 4
            else if r = 1 then (t1.getD q 0 + t3.getD q 0) / 4
            else 0
          else 0 := by
  simp only [Synth.fill_buffer] at h
  rw [if_neg (by omega : ¬ num_channels = 0)] at h
  rw [if_pos (⟨hstereo, by omega⟩ : synth.stereo = true ∧ 1 < num_channels)]
    at h
  rw [hch] at h
  have hscale : (1 : ℚ) / (([c0, c1, c2, c3] : List SoundChannel).length : ℚ)
      = 1 / 4 := by norm_num
  rw [hscale] at h
  rw [stereoMixLoop] at h
  cases hf0 : SoundChannel.fill_buffer pitches effects bank frameFuel evalFuel
      c0 sample_rate (len / num_channels) with
  | none =>
    simp only [hf0] at h
    cases h
  | some p0 =>
  obtain ⟨c0', t0⟩ := p0
  simp only [hf0] at h
  rw [stereoMixLoop] at h
  cases hf1 : SoundChannel.fill_buffer pitches effects bank frameFuel evalFuel
      c1 sample_rate (len / num_channels) with
  | none =>
    simp only [hf1] at h
    cases h
  | some p1 =>
  obtain ⟨c1', t1⟩ := p1
  simp only [hf1] at h
  rw [stereoMixLoop] at h
  cases hf2 : SoundChannel.fill_buffer pitches effects bank frameFuel evalFuel
      c2 sample_rate (len / num_channels) with
  | none =>
    simp only [hf2] at h
    cases h
  | some p2 =>
  obtain ⟨c2', t2⟩ := p2
  simp only [hf2] at h
  rw [stereoMixLoop] at h
  cases hf3 : SoundChannel.fill_buffer pitches effects bank frameFuel evalFuel
      c3 sample_rate (len / num_channels) with
  | none =>
    simp only [hf3] at h
    cases h
  | some p3 =>
  obtain ⟨c3', t3⟩ := p3
  simp only [hf3] at h
  rw [stereoMixLoop] at h
  simp only [Option.some.injEq, Prod.mk.injEq] at h
  obtain ⟨-, hout⟩ := h
  have hl0 : t0.length = len / num_channels := by
    unfold SoundChannel.fill_buffer at hf0
    exact soundFillLoop_length pitches effects bank evalFuel sample_rate
      (sample_rate / 50) frameFuel c0 (len / num_channels) _ _ hf0
  have hl1 : t1.length = len / num_channels := by
    unfold SoundChannel.fill_buffer at hf1
    exact soundFillLoop_length pitches effects bank evalFuel sample_rate
      (sample_rate / 50) frameFuel c1 (len / num_channels) _ _ hf1
  have hl2 : t2.length = len / num_channels := by
    unfold SoundChannel.fill_buffer at hf2
    exact soundFillLoop_length pitches effects bank evalFuel sample_rate
      (sample_rate / 50) frameFuel c2 (len / num_channels) _ _ hf2
  have hl3 : t3.length = len / num_channels := by
    unfold SoundChannel.fill_buffer at hf3
    exact soundFillLoop_length pitches effects bank evalFuel sample_rate
      (sample_rate / 50) frameFuel c3 (len / num_channels) _ _ hf3
  refine ⟨c0', c1', c2', c3', t0, t1, t2, t3, rfl, rfl, rfl, rfl,
    hl0, hl1, hl2, hl3, ?_, ?_⟩
  · rw [← hout]
    simp [mixInto_length]
  intro q r hr hj
  have hb0 : (0 &&& 1) = 0 := rfl
  have hb1 : (1 &&& 1) = 1 := rfl
  have hb2 : (2 &&& 1) = 0 := rfl
  have hb3 : (3 &&& 1) = 1 := rfl
  rw [hb0, hb1, hb2, hb3] at hout
  have hlen0 : (List.replicate len (0 : ℚ)).length = len := by simp
  have hL1 : (mixInto (1 / 4) (List.replicate len 0) 0 num_channels t0).length
      = len := by rw [mixInto_length, hlen0]
  have hL2 : (mixInto (1 / 4)
      (mixInto (1 / 4) (List.replicate len 0) 0 num_channels t0)
      1 num_channels t1).length = len := by rw [mixInto_length, hL1]
  have hL3 : (mixInto (1 / 4) (mixInto (1 / 4)
      (mixInto (1 / 4) (List.replicate len 0) 0 num_channels t0)
      1 num_channels t1) 0 num_channels t2).length = len := by
    rw [mixInto_length, hL2]
  rw [← hout]
  rw [mixInto_getD _ _ _ _ _ _ (by rw [hL3]; exact hj)]
  rw [mixInto_getD _ _ _ _ _ _ (by rw [hL2]; exact hj)]
  rw [mixInto_getD _ _ _ _ _ _ (by rw [hL1]; exact hj)]
  rw [mixInto_getD _ _ _ _ _ _ (by rw [hlen0]; exact hj)]
  rw [getD_replicate_zero]
  have hmod0 : (q * num_channels + r - 0) % num_channels = r := by
    rw [Nat.sub_zero, Nat.add_comm, Nat.add_mul_mod_self_right,
      Nat.mod_eq_of_lt hr]
  have hdiv0 : (q * num_channels + r - 0) / num_channels = q := by
    rw [Nat.sub_zero, Nat.add_comm,
      Nat.add_mul_div_right r q (by omega : 0 < num_channels),
      Nat.div_eq_of_lt hr]
    omega
  by_cases hr0 : r = 0
  · subst hr0
    have hcond1 : ¬(1 ≤ q * num_channels + 0 ∧
        (q * num_channels + 0 - 1) % num_channels = 0 ∧
        (q * num_channels + 0 - 1) / num_channels < t1.length) := by
      rcases Nat.eq_zero_or_pos q with hq | hq
      · subst hq; intro hcontra; omega
      · obtain ⟨q', rfl⟩ : ∃ q', q = q' + 1 := ⟨q - 1, by omega⟩
        have hsub : (q' + 1) * num_channels + 0 - 1
            = (num_channels - 1) + q' * num_channels := by
          have : (q' + 1) * num_channels = q' * num_channels + num_channels :=
            by ring
          omega
        rw [hsub, Nat.add_mul_mod_self_right,
          Nat.mod_eq_of_lt (by omega : num_channels - 1 < num_channels)]
        intro hcontra
        omega
    have hcond3 : ¬(1 ≤ q * num_channels + 0 ∧
        (q * num_channels + 0 - 1) % num_channels = 0 ∧
        (q * num_channels + 0 - 1) / num_channels < t3.length) := by
      rw [hl3, ← hl1]
      exact hcond1
    rw [if_neg hcond3, if_neg hcond1]
    by_cases hq : q < len / num_channels
    · rw [if_pos ⟨Nat.zero_le _, by rw [hmod0], by rw [hdiv0, hl2]; exact hq⟩,
        if_pos ⟨Nat.zero_le _, by rw [hmod0], by rw [hdiv0, hl0]; exact hq⟩]
      rw [hdiv0]
      simp [hq]
      ring
    · rw [if_neg (by rw [hdiv0, hl2]; intro hc; exact hq hc.2.2),
        if_neg (by rw [hdiv0, hl0]; intro hc; exact hq hc.2.2)]
      simp [hq]
  · have hcond0 : ¬(0 ≤ q * num_channels + r ∧
        (q * num_channels + r - 0) % num_channels = 0 ∧
        (q * num_channels + r - 0) / num_channels < t0.length) := by
      rw [hmod0]
      intro hcontra
      exact hr0 hcontra.2.1
    have hcond2 : ¬(0 ≤ q * num_channels + r ∧
        (q * num_channels + r - 0) % num_channels = 0 ∧
        (q * num_channels + r - 0) / num_channels < t2.length) := by
      rw [hmod0]
      intro hcontra
      exact hr0 hcontra.2.1
    rw [if_neg hcond2, if_neg hcond0]
    have hsub1 : q * num_channels + r - 1 = (r - 1) + q * num_channels := by
      omega
    have hmod1 : (q * num_channels + r - 1) % num_channels = r - 1 := by
      rw [hsub1, Nat.add_mul_mod_self_right,
        Nat.mod_eq_of_lt (by omega : r - 1 < num_channels)]
    have hdiv1 : (q * num_channels + r - 1) / num_channels = q := by
      rw [hsub1, Nat.add_mul_div_right _ _ (by omega : 0 < num_channels),
        Nat.div_eq_of_lt (by omega : r - 1 < num_channels)]
      omega
    by_cases hr1 : r = 1
    · subst hr1
      by_cases hq : q < len / num_channels
      · rw [if_pos ⟨by omega, by rw [hmod1], by rw [hdiv1, hl3]; exact hq⟩,
          if_pos ⟨by omega, by rw [hmod1], by rw [hdiv1, hl1]; exact hq⟩]
        rw [hdiv1]
        simp [hq]
        ring
      · rw [if_neg (by rw [hdiv1, hl3]; intro hc; exact hq hc.2.2),
          if_neg (by rw [hdiv1, hl1]; intro hc; exact hq hc.2.2)]
        simp [hq]
    · have hcond1' : ¬(1 ≤ q * num_channels + r ∧
          (q * num_channels + r - 1) % num_channels = 0 ∧
          (q * num_channels + r - 1) / num_channels < t1.length) := by
        rw [hmod1]
        intro hcontra
        omega
      have hcond3' : ¬(1 ≤ q * num_channels + r ∧
          (q * num_channels + r - 1) % num_channels = 0 ∧
          (q * num_channels + r - 1) / num_channels < t3.length) := by
        rw [hmod1]
        intro hcontra
        omega
      rw [if_neg hcond3', if_neg hcond1']
      simp [hr0, hr1]

/-- Witness for C7 at a concrete input. -/
theorem c7_stereo_routing_witness :
    quietSynth.stereo = true ∧
    quietSynth.channels = [SoundChannel.new, SoundChannel.new,
      SoundChannel.new, SoundChannel.new] ∧
    ∃ st0 st1 st2 st3 : SoundChannel, ∃ t0 t1 t2 t3 : List ℚ,
      SoundChannel.fill_buffer (fun _ => 1) [] bank0 8 1
        SoundChannel.new 50 (6 / 2) = some (st0, t0) ∧
      SoundChannel.fill_buffer (fun _ => 1) [] bank0 8 1
        SoundChannel.new 50 (6 / 2) = some (st1, t1) ∧
      SoundChannel.fill_buffer (fun _ => 1) [] bank0 8 1
        SoundChannel.new 50 (6 / 2) = some (st2, t2) ∧
      SoundChannel.fill_buffer (fun _ => 1) [] bank0 8 1
        SoundChannel.new 50 (6 / 2) = some (st3, t3) ∧
      t0.length = 6 / 2 ∧ t1.length = 6 / 2 ∧
      t2.length = 6 / 2 ∧ t3.length = 6 / 2 ∧
      ([0, 0, 0, 0, 0, 0] : List ℚ).length = 6 ∧
      ∀ q r : Nat, r < 2 → q * 2 + r < 6 →
        ([0, 0, 0, 0, 0, 0] : List ℚ).getD (q * 2 + r) 0 =
          if q < 6 / 2 then
            if r = 0 then (t0.getD q 0 + t2.getD q 0) / 4
            else if r = 1 then (t1.getD q 0 + t3.getD q 0) / 4
            else 0
          else 0 :=
  ⟨rfl, rfl,
    c7_stereo_routing (fun _ => 1) [] bank0 8 1 quietSynth
      SoundChannel.new SoundChannel.new SoundChannel.new SoundChannel.new
      2 50 6 quietSynthW [0, 0, 0, 0, 0, 0] rfl (by omega) rfl
      quiet_fill_eq⟩

/-- The sample fetch succeeds whenever the index is inside the sample
and the sample lies inside the image (for a looped instrument the
loop-start byte must also be in the image). -/
theorem readVal_isSome (mem : List Nat) (instrument : Instrument)
    (lerp : Bool) (phase : ℚ) (idx : Nat)
    (hidx : idx < instrument.sample_len * 2)
    (hbound : instrument.sample_addr + instrument.sample_len * 2 ≤ mem.length)
    (hloop : instrument.is_one_shot = true ∨
      instrument.sample_addr + instrument.loop_offset < mem.length) :
    ∃ v, readVal mem instrument lerp phase idx = some v := by
  have hleft : instrument.sample_addr + idx < mem.length := by omega
  unfold readVal
  cases lerp with
  | false =>
    rw [if_neg (by simp)]
    rw [List.getElem?_eq_getElem hleft]
    exact ⟨_, rfl⟩
  | true =>
    rw [if_pos rfl]
    rw [List.getElem?_eq_getElem hleft]
    by_cases hend : instrument.sample_addr + idx + 1 =
        instrument.sample_addr + instrument.sample_len * 2
    · rw [if_pos hend]
      cases hos : instrument.is_one_shot with
      | true => exact ⟨_, rfl⟩
      | false =>
        have hl : instrument.sample_addr + instrument.loop_offset
            < mem.length := by
          rcases hloop with h | h
          · rw [hos] at h; cases h
          · exact h
        rw [List.getElem?_eq_getElem hl]
        exact ⟨_, rfl⟩
    · rw [if_neg hend]
      have hr : instrument.sample_addr + idx + 1 < mem.length := by omega
      rw [List.getElem?_eq_getElem hr]
      exact ⟨_, rfl⟩

/-- A one-shot voice whose advanced phase reaches the end of the sample
drops the instrument and breaks. -/
theorem oneSample_drop (mem : List Nat) (instrument : Instrument)
    (vol step : ℚ) (lerp : Bool) (phase : ℚ)
    (hone : instrument.is_one_shot = true)
    (hfl : instrument.sample_len * 2 ≤ Nat.floor (phase + step)) :
    oneSample mem instrument vol step lerp phase = some (none, phase + step) := by
  unfold oneSample
  rw [if_pos hfl, if_pos hone]

/-- A voice whose advanced phase stays inside the sample emits one
scaled sample. -/
theorem oneSample_emit (mem : List Nat) (instrument : Instrument)
    (vol step : ℚ) (lerp : Bool) (phase : ℚ)
    (hfl : Nat.floor (phase + step) < instrument.sample_len * 2)
    (hbound : instrument.sample_addr + instrument.sample_len * 2 ≤ mem.length)
    (hloop : instrument.is_one_shot = true ∨
      instrument.sample_addr + instrument.loop_offset < mem.length) :
    ∃ v, oneSample mem instrument vol step lerp phase =
      some (some v, phase + step) := by
  unfold oneSample
  rw [if_neg (by omega)]
  obtain ⟨v, hv⟩ := readVal_isSome mem instrument lerp (phase + step)
    (Nat.floor (phase + step)) hfl hbound hloop
  rw [hv]
  exact ⟨_, rfl⟩

/-- Unfolding of one iteration of the sample fill loop. -/
theorem sampleFillLoop_succ (mem : List Nat) (instrument : Instrument)
    (vol step : ℚ) (lerp : Bool) (n : Nat) (phase : ℚ) :
    sampleFillLoop mem instrument vol step lerp (n + 1) phase =
      match oneSample mem instrument vol step lerp phase with
      | none => none
      | some (none, phase') => some (none, phase', List.replicate (n + 1) 0)
      | some (some v, phase') =>
        match sampleFillLoop mem instrument vol step lerp n phase' with
        | none => none
        | some (oi, phaseF, out) => some (oi, phaseF, v :: out) := rfl

/-- A one-shot voice crosses the end of its sample within `n + 1`
rendered samples once `phase + (n + 1) · step` reaches the end, and the
fill loop then reports the dropped instrument. -/
theorem oneshot_fillLoop_drops (mem : List Nat) (instrument : Instrument)
    (vol step : ℚ) (lerp : Bool)
    (hone : instrument.is_one_shot = true)
    (hbound : instrument.sample_addr + instrument.sample_len * 2 ≤ mem.length)
    (hstep : 0 < step) :
    ∀ (n : Nat) (phase : ℚ), 0 ≤ phase →
      ((instrument.sample_len * 2 : Nat) : ℚ) ≤ phase + (n + 1) * step →
      ∃ ph out, sampleFillLoop mem instrument vol step lerp (n + 1) phase =
        some (none, ph, out) := by
  intro n
  induction n with
  | zero =>
    intro phase h0 hcross
    have hφ : ((instrument.sample_len * 2 : Nat) : ℚ) ≤ phase + step := by
      calc ((instrument.sample_len * 2 : Nat) : ℚ)
          ≤ phase + (0 + 1) * step := hcross
        _ = phase + step := by ring
    have hfl : instrument.sample_len * 2 ≤ Nat.floor (phase + step) :=
      Nat.le_floor hφ
    refine ⟨phase + step, List.replicate 1 0, ?_⟩
    simp only [sampleFillLoop, oneSample_drop mem instrument vol step lerp
      phase hone hfl]
  | succ n ih =>
    intro phase h0 hcross
    by_cases hfl : instrument.sample_len * 2 ≤ Nat.floor (phase + step)
    · refine ⟨phase + step, List.replicate (n + 2) 0, ?_⟩
      simp only [sampleFillLoop, oneSample_drop mem instrument vol step lerp
        phase hone hfl]
    · push_neg at hfl
      obtain ⟨v, hv⟩ := oneSample_emit mem instrument vol step lerp phase hfl
        hbound (Or.inl hone)
      obtain ⟨ph, out, hrec⟩ := ih (phase + step) (by positivity)
        (by
          push_cast at hcross ⊢
          have heq : phase + step + ((n : ℚ) + 1) * step
              = phase + ((n : ℚ) + 1 + 1) * step := by ring
          rw [heq]
          linarith)
      refine ⟨ph, v :: out, ?_⟩
      rw [sampleFillLoop_succ, hv]
      simp only [hrec]

/-- C5: after triggering a one-shot instrument (phase 0), a single fill
of strictly more than `2·sample_len · time_step · sample_rate` samples
drops the instrument, and every subsequent fill renders pure
equilibrium. -/
theorem c5_one_shot_termination (pitches : Nat → Nat) (mem : List Nat)
    (sample_rate : Nat) (ch : SampleChannel) (instrument : Instrument)
    (n : Nat)
    (hinstr : ch.instr = some instrument)
    (hone : instrument.is_one_shot = true)
    (hphase : ch.phase = 0)
    (hts : 0 < calc_time_step pitches ch)
    (hsr : 0 < sample_rate)
    (hbound : instrument.sample_addr + instrument.sample_len * 2 ≤ mem.length)
    (hn : ((instrument.sample_len * 2 : Nat) : ℚ) * calc_time_step pitches ch
      * (sample_rate : ℚ) < (n : ℚ)) :
    ∃ ch' out,
      SampleChannel.fill_buffer pitches mem sample_rate ch n =
        some (ch', out) ∧
      ch'.instr = none ∧
      ∀ m, SampleChannel.fill_buffer pitches mem sample_rate ch' m =
        some (ch', List.replicate m 0) := by
  set ts := calc_time_step pitches ch with hts_def
  have hsrq : (0 : ℚ) < (sample_rate : ℚ) := by exact_mod_cast hsr
  have hstep : 0 < 1 / (ts * (sample_rate : ℚ)) := by positivity
  have hn1 : 1 ≤ n := by
    rcases Nat.eq_zero_or_pos n with h0 | h1
    · exfalso
      subst h0
      have hge : (0 : ℚ) ≤ ((instrument.sample_len * 2 : Nat) : ℚ) * ts
          * (sample_rate : ℚ) := by positivity
      rw [Nat.cast_zero] at hn
      linarith
    · exact h1
  obtain ⟨k, rfl⟩ : ∃ k, n = k + 1 := ⟨n - 1, by omega⟩
  have hpos : (0 : ℚ) < ts * (sample_rate : ℚ) := by positivity
  have hcross : ((instrument.sample_len * 2 : Nat) : ℚ) ≤
      0 + ((k : ℚ) + 1) * (1 / (ts * (sample_rate : ℚ))) := by
    rw [zero_add, mul_one_div, le_div_iff hpos]
    push_cast at hn ⊢
    ring_nf at hn ⊢
    linarith
  obtain ⟨ph, out, hloop⟩ := oneshot_fillLoop_drops mem instrument
    (ch.volume + ch.volume_adjust) (1 / (ts * (sample_rate : ℚ))) ch.lerp
    hone hbound hstep k 0 le_rfl (by push_cast; push_cast at hcross; linarith)
  refine ⟨{ ch with instr := none, phase := ph }, out, ?_, rfl, ?_⟩
  · unfold SampleChannel.fill_buffer
    simp only [hinstr, ← hts_def, hphase, hloop]
  · intro m
    exact fill_buffer_no_instr pitches mem sample_rate _ m rfl

/-- Witness for C5 at a concrete input: one rendered sample at 1 Hz is
already past the end of a 2-byte one-shot sample, so the voice dies. -/
theorem c5_one_shot_termination_witness :
    chanC5.instr = some instrC5 ∧
    ∃ ch' out,
      SampleChannel.fill_buffer (fun _ => 1) [7, 9] 1 chanC5 1 =
        some (ch', out) ∧
      ch'.instr = none ∧
      ∀ m, SampleChannel.fill_buffer (fun _ => 1) [7, 9] 1 ch' m =
        some (ch', List.replicate m 0) :=
  ⟨rfl,
    c5_one_shot_termination (fun _ => 1) [7, 9] 1 chanC5 instrC5 1 rfl rfl rfl
      (by norm_num [calc_time_step, chanC5, instrC5, wrapAddSigned16,
        CLOCK_INTERVAL_S, OCTAVE_SIZE])
      (by norm_num) (by decide)
      (by norm_num [calc_time_step, chanC5, instrC5, wrapAddSigned16,
        CLOCK_INTERVAL_S, OCTAVE_SIZE])⟩

/-- C6 counterexample: a looped voice at a pitch whose phase step
exceeds the loop length (step ≈ 5.07 source samples per output sample,
loop length `2·sample_len − L = 2`) wraps to a phase of ≈ 3.07, which
is **not** in `[0, 2·sample_len)`, refuting the claimed invariant for
arbitrary looped instruments. -/
theorem c6_counterexample :
    SampleChannel.fill_buffer (fun _ => 1) [1, 2, 3, 4, 5] 700000 chanC6 1 =
      some ({ chanC6 with phase := 6052882 / 1973559 }, [1 / 32]) ∧
    ¬ ((6052882 / 1973559 : ℚ) < ((instrC6.sample_len * 2 : Nat) : ℚ)) := by
  constructor
  · have hstep : (1 : ℚ) /
        (calc_time_step (fun _ => 1) chanC6 * ((700000 : Nat) : ℚ)) =
        10000000 / 1973559 := by
      norm_num [calc_time_step, chanC6, instrC6, wrapAddSigned16,
        CLOCK_INTERVAL_S, OCTAVE_SIZE]
    have hfl : Nat.floor ((0 : ℚ) + 10000000 / 1973559) = 5 := by
      have h0 : (0 : ℚ) + 10000000 / 1973559 = 10000000 / 1973559 := by
        norm_num
      rw [h0, Nat.floor_eq_iff (by norm_num)]
      norm_num
    have hwac : ((wrapAmt instrC6 : Nat) : ℚ) = 2 := by
      norm_num [wrapAmt, instrC6]
    have hphi2 : (0 : ℚ) + 10000000 / 1973559 - 2 = 6052882 / 1973559 := by
      norm_num
    have hfl2 : Nat.floor ((6052882 : ℚ) / 1973559) = 3 := by
      rw [Nat.floor_eq_iff (by norm_num)]
      norm_num
    have h1 : oneSample [1, 2, 3, 4, 5] instrC6 1 (10000000 / 1973559) false 0
        = some (some (1 / 32), 6052882 / 1973559) := by
      unfold oneSample
      rw [hfl, if_pos (by decide), if_neg (by decide), hwac, hphi2, hfl2]
      unfold readVal
      rw [if_neg (by decide)]
      rw [show ([1, 2, 3, 4, 5] : List Nat)[instrC6.sample_addr + 3]?
        = some 4 from rfl]
      norm_num [i8val]
    unfold SampleChannel.fill_buffer
    simp only [show chanC6.instr = some instrC6 from rfl,
      show chanC6.volume = 1 from rfl,
      show chanC6.volume_adjust = 0 from rfl,
      show chanC6.lerp = false from rfl,
      show chanC6.phase = 0 from rfl,
      hstep, add_zero]
    rw [sampleFillLoop_succ, h1]
    norm_num [sampleFillLoop, chanC6]
  · norm_num [instrC6]

/-- C6 amended: for a looped instrument whose phase advance does not
exceed the loop length (`step ≤ 2·sample_len − L`) and whose
pre-increment phase is in range, a wrap subtracts exactly
`2·sample_len − L` from the advanced phase and the wrapped phase lands
back in `[0, 2·sample_len)`. -/
theorem c6_loop_wrap (mem : List Nat) (instrument : Instrument)
    (vol step : ℚ) (lerp : Bool) (phase : ℚ)
    (hone : instrument.is_one_shot = false)
    (hoff : instrument.loop_offset < instrument.sample_len * 2)
    (hu16 : instrument.sample_len * 2 < 65536)
    (hbound : instrument.sample_addr + instrument.sample_len * 2 ≤ mem.length)
    (hstepbound : step ≤ ((instrument.sample_len * 2 : Nat) : ℚ)
      - (instrument.loop_offset : ℚ))
    (hph0 : 0 ≤ phase)
    (hph : phase < ((instrument.sample_len * 2 : Nat) : ℚ))
    (hwrap : ((instrument.sample_len * 2 : Nat) : ℚ) ≤ phase + step) :
    ∃ v, oneSample mem instrument vol step lerp phase =
        some (some v, phase + step - (((instrument.sample_len * 2 : Nat) : ℚ)
          - (instrument.loop_offset : ℚ))) ∧
      0 ≤ phase + step - (((instrument.sample_len * 2 : Nat) : ℚ)
        - (instrument.loop_offset : ℚ)) ∧
      phase + step - (((instrument.sample_len * 2 : Nat) : ℚ)
        - (instrument.loop_offset : ℚ))
        < ((instrument.sample_len * 2 : Nat) : ℚ) := by
  have hcast : ((wrapAmt instrument : Nat) : ℚ)
      = ((instrument.sample_len * 2 : Nat) : ℚ)
        - (instrument.loop_offset : ℚ) := by
    have hwa : wrapAmt instrument
        = instrument.sample_len * 2 - instrument.loop_offset := by
      unfold wrapAmt
      omega
    rw [hwa, Nat.cast_sub (le_of_lt hoff)]
  have hfl1 : instrument.sample_len * 2 ≤ Nat.floor (phase + step) :=
    Nat.le_floor hwrap
  have hoffq : (0 : ℚ) ≤ (instrument.loop_offset : ℚ) := by positivity
  have hlow : (0 : ℚ) ≤ phase + step
      - (((instrument.sample_len * 2 : Nat) : ℚ)
        - (instrument.loop_offset : ℚ)) := by linarith
  have hhigh : phase + step - (((instrument.sample_len * 2 : Nat) : ℚ)
      - (instrument.loop_offset : ℚ))
      < ((instrument.sample_len * 2 : Nat) : ℚ) := by linarith
  have hidx2 : Nat.floor (phase + step
      - (((instrument.sample_len * 2 : Nat) : ℚ)
        - (instrument.loop_offset : ℚ))) < instrument.sample_len * 2 :=
    (Nat.floor_lt hlow).mpr hhigh
  obtain ⟨v, hv⟩ := readVal_isSome mem instrument lerp
    (phase + step - (((instrument.sample_len * 2 : Nat) : ℚ)
      - (instrument.loop_offset : ℚ)))
    (Nat.floor (phase + step - (((instrument.sample_len * 2 : Nat) : ℚ)
      - (instrument.loop_offset : ℚ))))
    hidx2 hbound (Or.inr (by omega))
  unfold oneSample
  rw [if_pos hfl1, if_neg (by simp [hone]), hcast, hv]
  exact ⟨vol * v / 128, by simp, hlow, hhigh⟩

/-- Witness for C6 (amended) at a concrete input: `step = 3/2`,
`phase = 1`, loop length 2: the wrap lands at `1/2 ∈ [0, 2)`. -/
theorem c6_loop_wrap_witness :
    ∃ v, oneSample [7, 9] instrC6 1 (3 / 2) false 1 =
        some (some v, 1 + 3 / 2 - (((instrC6.sample_len * 2 : Nat) : ℚ)
          - (instrC6.loop_offset : ℚ))) ∧
      0 ≤ 1 + 3 / 2 - (((instrC6.sample_len * 2 : Nat) : ℚ)
        - (instrC6.loop_offset : ℚ)) ∧
      1 + 3 / 2 - (((instrC6.sample_len * 2 : Nat) : ℚ)
        - (instrC6.loop_offset : ℚ))
        < ((instrC6.sample_len * 2 : Nat) : ℚ) :=
  c6_loop_wrap [7, 9] instrC6 1 (3 / 2) false 1 rfl (by decide) (by decide)
    (by decide) (by norm_num [instrC6]) (by norm_num) (by norm_num [instrC6])
    (by norm_num [instrC6])

end Speedball2
